import Mathlib

set_option maxRecDepth 80000

/-!
Verification of the Henneth review-generation system.

This file gives a shallow embedding, in Lean, of the parts of the code that
the specification's testable claims are about:

* `backend_product/persona_selector.py` — the persona selection engine
  (`prepare_dataframe`, `_convert_string_to_list`, `_generate_random_persona`,
  `_filter_personas`, `get_selected_personas`, `get_unique_values`);
* `backend/manger.py` — the orchestration loop `Manager.generate_product_reviews`;
* `backend/product_reviewer.py` — `ProductReviewer._initialize_model`
  (default/overlay configuration merge);
* `backend/review_summarizer.py` — `ReviewSummary.from_json` / `to_json`
  together with a model of the JSON decoding it relies on.

Modelling conventions:

* A pandas `DataFrame` of personas is a `List Persona`; filtering with a boolean
  mask is `List.filter`; `DataFrame.nlargest(n, col)` is a stable descending
  sort followed by `take n`; `DataFrame.sample(n)` and `random.sample` are
  modelled by `pySample`, which draws `k` distinct positions driven by an
  explicit seed function and fails (like `random.sample`) when `k` exceeds the
  population size.
* Randomness (`random.randint`, `random.choice`, `random.sample`) is made
  explicit: every random primitive takes a seed (or a seed function) and is a
  pure function of it.  Each primitive returns `Option`, with `none` modelling
  the exception Python raises on an invalid call (empty population, inverted
  range, over-long sample).
* Python truthiness on optional list fields (`if criteria.professions:`) is
  `truthy`, which is `false` both for `None` and for an empty list.
* Machine floats appear only as JSON numbers and configuration values; they are
  modelled as integers / rationals (the claims under study do not depend on
  float rounding).
-/

/-! ### Models of Python library primitives -/

/-- Model of `random.randint(lo, hi)`: a uniformly chosen integer with
`lo ≤ x ≤ hi`, driven by an explicit seed; `none` models the `ValueError`
raised when `lo > hi`. -/
def pyRandint (lo hi : Int) (seed : Nat) : Option Int :=
  if lo ≤ hi then some (lo + ((seed % (hi - lo + 1).toNat : Nat) : Int)) else none

/-- Model of `random.choice(l)`: an element of `l` picked by the seed; `none`
models the `IndexError` raised on an empty sequence. -/
def pyChoice {α : Type} (l : List α) (seed : Nat) : Option α :=
  l.get? (seed % l.length)

/-- Model of `random.sample(l, k)`: `k` distinct positions of `l`, drawn one by
one as directed by the seed function; `none` models the `ValueError` raised
when `k` exceeds the population size.  (Also models
`DataFrame.sample(k)`, which likewise samples rows without replacement.) -/
def pySample {α : Type} (l : List α) (k : Nat) (key : Nat → Nat) : Option (List α) :=
  match k with
  | 0 => some []
  | Nat.succ k' =>
    match l with
    | [] => none
    | a :: t =>
      let i := key 0 % (a :: t).length
      let x := (a :: t).get ⟨i, Nat.mod_lt _ (Nat.succ_pos _)⟩
      ((pySample ((a :: t).eraseIdx i) k' (fun n => key (n + 1))).map (fun r => x :: r))

/-- Python `dict` assignment `d[k] = v`: replace the value in place when the
key is present, append otherwise (insertion order is preserved, as for
Python dictionaries). -/
def dictInsert {α : Type} : List (String × α) → String → α → List (String × α)
  | [], k, v => [(k, v)]
  | (k0, v0) :: t, k, v =>
    if k0 = k then (k0, v) :: t else (k0, v0) :: dictInsert t k v

/-- Python `{**d1, **d2}`: start from `d1` and assign every binding of `d2`
into it in order, later assignments winning. -/
def dictMerge {α : Type} (d1 d2 : List (String × α)) : List (String × α) :=
  d2.foldl (fun acc kv => dictInsert acc kv.1 kv.2) d1

/-- First value bound to `k`, as Python `d[k]` on a duplicate-free dict. -/
def dictLookup {α : Type} : List (String × α) → String → Option α
  | [], _ => none
  | (k0, v0) :: t, k => if k0 = k then some v0 else dictLookup t k

/-- Keys of an association-list dictionary. -/
def dictKeys {α : Type} (d : List (String × α)) : List String :=
  d.map Prod.fst

/-! ### Persona data model (`backend_product/persona_selector.py`)

`SelectedPersona` and a row of the persona `DataFrame` carry the same eight
fields, so a single structure models both; `SelectedPersona.from_series`
(which copies the eight fields of a row verbatim) is `fromSeries` below. -/

/-- One persona record: the eight required columns of the persona store. -/
structure Persona where
  name : String
  age : Int
  profession : String
  nationality : String
  salary_range : String
  hobbies : List String
  priorities : List String
  constraints : List String
deriving DecidableEq, Repr

/-- `SelectedPersona.from_series`: builds the selected persona from a row by
copying each of the eight fields. -/
def fromSeries (s : Persona) : Persona :=
  { name := s.name
    age := s.age
    profession := s.profession
    nationality := s.nationality
    salary_range := s.salary_range
    hobbies := s.hobbies
    priorities := s.priorities
    constraints := s.constraints }

/-- `PersonaSelectionCriteria` (dataclass with all-optional constraint fields;
the two minimum-match counts default to 1).  The mismatch counts are
modelled as `Nat` (the code is only ever called with non-negative counts;
`random.sample` would reject a negative size). -/
structure PersonaSelectionCriteria where
  age_range : Option (Int × Int) := none
  professions : Option (List String) := none
  nationalities : Option (List String) := none
  salary_ranges : Option (List String) := none
  desired_hobbies : Option (List String) := none
  desired_priorities : Option (List String) := none
  constraints : Option (List String) := none
  min_matching_hobbies : Nat := 1
  min_matching_priorities : Nat := 1
deriving Repr

/-- The list content of an optional list field (`None` reads as `[]`). -/
def optList {α : Type} (o : Option (List α)) : List α :=
  o.getD []

/-- Python truthiness of an optional list: `None` and `[]` are falsy,
a non-empty list is truthy. -/
def truthy {α : Type} (o : Option (List α)) : Bool :=
  !(optList o).isEmpty

/-- `len(set(x) & set(desired))`: the number of distinct values of `xs`
that also occur in `desired`. -/
def matchCount (xs desired : List String) : Nat :=
  (xs.dedup.filter (fun h => desired.contains h)).length

/-- The cached distinct-value catalog `self.unique_values`: distinct values of
each scalar column, and the union of the per-record values for each
multi-valued column.  (Python builds the unions with `set(...)`, whose
iteration order is arbitrary; the model fixes one order by deduplicating
the concatenation.) -/
structure UniqueValues where
  professions : List String
  nationalities : List String
  salary_ranges : List String
  hobbies : List String
  priorities : List String
  constraints : List String
deriving DecidableEq, Repr

/-- `_cache_unique_values`, as a function of the prepared record list. -/
def cacheUniqueValues (df : List Persona) : UniqueValues :=
  { professions := (df.map Persona.profession).dedup
    nationalities := (df.map Persona.nationality).dedup
    salary_ranges := (df.map Persona.salary_range).dedup
    hobbies := (df.flatMap Persona.hobbies).dedup
    priorities := (df.flatMap Persona.priorities).dedup
    constraints := (df.flatMap Persona.constraints).dedup }

/-! ### `_generate_random_persona` -/

/-- The random draws consumed by one call of `_generate_random_persona`,
made explicit: one seed per `randint`/`choice` call and one seed function
per `random.sample` call. -/
structure Draws where
  nameSeed : Nat
  ageSeed : Nat
  profSeed : Nat
  natSeed : Nat
  salSeed : Nat
  hobbySeedKey : Nat → Nat
  hobbyExtraCountSeed : Nat
  hobbyExtraKey : Nat → Nat
  prioSeedKey : Nat → Nat
  prioExtraCountSeed : Nat
  prioExtraKey : Nat → Nat
  consCountSeed : Nat
  consKey : Nat → Nat

/-- All-zero random draws (always picks the first available element). -/
def Draws.zero : Draws :=
  { nameSeed := 0, ageSeed := 0, profSeed := 0, natSeed := 0, salSeed := 0
    hobbySeedKey := fun _ => 0, hobbyExtraCountSeed := 0, hobbyExtraKey := fun _ => 0
    prioSeedKey := fun _ => 0, prioExtraCountSeed := 0, prioExtraKey := fun _ => 0
    consCountSeed := 0, consKey := fun _ => 0 }

/-- The age draw of `_generate_random_persona`:
`randint(*age_range) if criteria.age_range else randint(18, 80)`. -/
def drawAge (c : PersonaSelectionCriteria) (r : Draws) : Option Int :=
  match c.age_range with
  | some (lo, hi) => pyRandint lo hi r.ageSeed
  | none => pyRandint 18 80 r.ageSeed

/-- The seeded hobby subset of `_generate_random_persona`:
`random.sample(desired_hobbies, min(min_matching_hobbies, len(desired_hobbies)))`
when the desired set is truthy, else the empty start. -/
def drawHobbySeed (c : PersonaSelectionCriteria) (r : Draws) : Option (List String) :=
  if truthy c.desired_hobbies then
    pySample (optList c.desired_hobbies)
      (min c.min_matching_hobbies (optList c.desired_hobbies).length) r.hobbySeedKey
  else
    some []

/-- The seeded priority subset, analogously. -/
def drawPrioSeed (c : PersonaSelectionCriteria) (r : Draws) : Option (List String) :=
  if truthy c.desired_priorities then
    pySample (optList c.desired_priorities)
      (min c.min_matching_priorities (optList c.desired_priorities).length) r.prioSeedKey
  else
    some []

/-- `_generate_random_persona(criteria)`: assembles a synthetic persona from
the criteria and the cached catalog.  `none` models the exception path
(re-raised by the Python code) when one of the random primitives fails. -/
def genRandomPersona (uv : UniqueValues) (c : PersonaSelectionCriteria) (r : Draws) :
    Option Persona := do
  let randomName := "RandomPersona_" ++ toString (1000 + r.nameSeed % 9000)
  let age ← drawAge c r
  let profession ← pyChoice
    (if truthy c.professions then optList c.professions else uv.professions) r.profSeed
  let nationality ← pyChoice
    (if truthy c.nationalities then optList c.nationalities else uv.nationalities) r.natSeed
  let salaryRange ← pyChoice
    (if truthy c.salary_ranges then optList c.salary_ranges else uv.salary_ranges) r.salSeed
  let hobbySeed ← drawHobbySeed c r
  let remainingHobbies ← pySample (uv.hobbies.filter (fun h => !hobbySeed.contains h))
    (1 + r.hobbyExtraCountSeed % 3) r.hobbyExtraKey
  let hobbies := hobbySeed ++ remainingHobbies
  let prioSeed ← drawPrioSeed c r
  let remainingPriorities ← pySample (uv.priorities.filter (fun p => !prioSeed.contains p))
    (1 + r.prioExtraCountSeed % 2) r.prioExtraKey
  let priorities := prioSeed ++ remainingPriorities
  let consList ← pySample uv.constraints (1 + r.consCountSeed % 2) r.consKey
  pure
    { name := randomName, age := age, profession := profession
      nationality := nationality, salary_range := salaryRange
      hobbies := hobbies, priorities := priorities, constraints := consList }

/-- The sequence of personas produced by `k` successive calls of
`_generate_random_persona` (the `i`-th call consuming the draws `rnd i`);
fails as soon as one call fails. -/
def genSeq (uv : UniqueValues) (c : PersonaSelectionCriteria) (rnd : Nat → Draws) :
    Nat → Option (List Persona)
  | 0 => some []
  | Nat.succ k =>
    match genSeq uv c rnd k with
    | none => none
    | some ps =>
      match genRandomPersona uv c (rnd k) with
      | none => none
      | some p => some (ps ++ [p])

/-! ### `_filter_personas` -/

/-- Age filter: `(age >= lo) & (age <= hi)` when the range is given
(a 2-tuple is always truthy in Python). -/
def stepAge (c : PersonaSelectionCriteria) (df : List Persona) : List Persona :=
  match c.age_range with
  | some (lo, hi) => df.filter (fun p => decide (lo ≤ p.age) && decide (p.age ≤ hi))
  | none => df

/-- `profession.isin(criteria.professions)` when the allow-list is truthy. -/
def stepProf (c : PersonaSelectionCriteria) (df : List Persona) : List Persona :=
  if truthy c.professions then
    df.filter (fun p => (optList c.professions).contains p.profession)
  else df

/-- `nationality.isin(criteria.nationalities)` when the allow-list is truthy. -/
def stepNat (c : PersonaSelectionCriteria) (df : List Persona) : List Persona :=
  if truthy c.nationalities then
    df.filter (fun p => (optList c.nationalities).contains p.nationality)
  else df

/-- `salary_range.isin(criteria.salary_ranges)` when the allow-list is truthy. -/
def stepSal (c : PersonaSelectionCriteria) (df : List Persona) : List Persona :=
  if truthy c.salary_ranges then
    df.filter (fun p => (optList c.salary_ranges).contains p.salary_range)
  else df

/-- Minimum-match filter on hobbies: `hobby_match_count >= min_matching_hobbies`
when the desired set is truthy. -/
def stepHobby (c : PersonaSelectionCriteria) (df : List Persona) : List Persona :=
  if truthy c.desired_hobbies then
    df.filter (fun p => c.min_matching_hobbies ≤ matchCount p.hobbies (optList c.desired_hobbies))
  else df

/-- Minimum-match filter on priorities. -/
def stepPrio (c : PersonaSelectionCriteria) (df : List Persona) : List Persona :=
  if truthy c.desired_priorities then
    df.filter (fun p =>
      c.min_matching_priorities ≤ matchCount p.priorities (optList c.desired_priorities))
  else df

/-- The real records surviving all present filters (steps in source order). -/
def filteredReal (df : List Persona) (c : PersonaSelectionCriteria) : List Persona :=
  stepPrio c (stepHobby c (stepSal c (stepNat c (stepProf c (stepAge c df)))))

/-- `total_score`: the sum of the match-count columns that were added
(one per truthy desired set). -/
def totalScore (c : PersonaSelectionCriteria) (p : Persona) : Nat :=
  (if truthy c.desired_hobbies then matchCount p.hobbies (optList c.desired_hobbies) else 0) +
  (if truthy c.desired_priorities then matchCount p.priorities (optList c.desired_priorities) else 0)

/-- Stable insertion of `p` into a list sorted by descending score: `p` goes
after every earlier element with a score at least as large. -/
def insertDesc (score : Persona → Nat) (p : Persona) : List Persona → List Persona
  | [] => [p]
  | q :: t => if score q < score p then p :: q :: t else q :: insertDesc score p t

/-- Stable descending sort by score (insertion sort, ties keeping the earlier
row first) — the ordering behaviour of `DataFrame.nlargest` with its default
`keep='first'`. -/
def sortDesc (score : Persona → Nat) (l : List Persona) : List Persona :=
  l.foldr (insertDesc score) []

/-- `DataFrame.nlargest(n, col)`: the `n` first rows of the stable descending
sort. -/
def pdNlargest (n : Nat) (score : Persona → Nat) (l : List Persona) : List Persona :=
  (sortDesc score l).take n

/-- `_filter_personas(criteria, num_personas, randomize_if_insufficient)`:
filter, backfill with synthesized personas when short (and permitted), trim
by total match score or by a uniform sample when over-full.  The state of
the Python RNG is made explicit (`rnd` for the generated personas, `sampleKey`
for the trimming `DataFrame.sample`); `none` models the exception path. -/
def filterPersonas (df : List Persona) (uv : UniqueValues) (c : PersonaSelectionCriteria)
    (numPersonas : Nat) (randomizeIfInsufficient : Bool)
    (rnd : Nat → Draws) (sampleKey : Nat → Nat) : Option (List Persona) :=
  let filtered := filteredReal df c
  let withGenO : Option (List Persona) :=
    if filtered.length < numPersonas && randomizeIfInsufficient then
      (genSeq uv c rnd (numPersonas - filtered.length)).map (fun g => filtered ++ g)
    else
      some filtered
  match withGenO with
  | none => none
  | some withGen =>
    if numPersonas < withGen.length then
      if truthy c.desired_hobbies || truthy c.desired_priorities then
        some (pdNlargest numPersonas (totalScore c) withGen)
      else
        pySample withGen numPersonas sampleKey
    else
      some withGen

/-- `get_selected_personas`: `_filter_personas` followed by
`SelectedPersona.from_series` on every surviving row. -/
def getSelectedPersonas (df : List Persona) (uv : UniqueValues)
    (c : PersonaSelectionCriteria) (numPersonas : Nat) (randomizeIfInsufficient : Bool)
    (rnd : Nat → Draws) (sampleKey : Nat → Nat) : Option (List Persona) :=
  (filterPersonas df uv c numPersonas randomizeIfInsufficient rnd sampleKey).map
    (fun rows => rows.map fromSeries)

/-- The personas synthesized during one `get_selected_personas` run
(empty when no backfill was needed or permitted). -/
def generatedOf (df : List Persona) (uv : UniqueValues) (c : PersonaSelectionCriteria)
    (numPersonas : Nat) (randomizeIfInsufficient : Bool) (rnd : Nat → Draws) : List Persona :=
  if (filteredReal df c).length < numPersonas && randomizeIfInsufficient then
    (genSeq uv c rnd (numPersonas - (filteredReal df c).length)).getD []
  else []

/-- A persona satisfies every constraint present in the criteria: age within
the inclusive range, categorical fields in their truthy allow-lists, and,
for each truthy desired set, at least the minimum-match count of distinct
common values. -/
def satisfiesAllB (c : PersonaSelectionCriteria) (p : Persona) : Bool :=
  (match c.age_range with
   | some (lo, hi) => decide (lo ≤ p.age) && decide (p.age ≤ hi)
   | none => true) &&
  (!truthy c.professions || (optList c.professions).contains p.profession) &&
  (!truthy c.nationalities || (optList c.nationalities).contains p.nationality) &&
  (!truthy c.salary_ranges || (optList c.salary_ranges).contains p.salary_range) &&
  (!truthy c.desired_hobbies ||
    decide (c.min_matching_hobbies ≤ matchCount p.hobbies (optList c.desired_hobbies))) &&
  (!truthy c.desired_priorities ||
    decide (c.min_matching_priorities ≤ matchCount p.priorities (optList c.desired_priorities)))

/-! ### Selector state (`PersonaSelector` object) -/

/-- The state of a constructed `PersonaSelector`: the prepared record list and
the cached distinct-value catalog. -/
structure PersonaSelector where
  df : List Persona
  unique_values : UniqueValues
deriving Repr

/-- `get_selected_personas` as an operation on the selector object: the method
works on `self.df.copy()` and never rebinds `self.df` or
`self.unique_values`, so the state component is returned unchanged. -/
def PersonaSelector.getSelectedPersonasS (st : PersonaSelector)
    (c : PersonaSelectionCriteria) (numPersonas : Nat) (randomizeIfInsufficient : Bool)
    (rnd : Nat → Draws) (sampleKey : Nat → Nat) :
    Option (List Persona) × PersonaSelector :=
  (getSelectedPersonas st.df st.unique_values c numPersonas randomizeIfInsufficient rnd sampleKey,
   st)

/-- `get_unique_values`: returns a copy of the cached catalog, leaving the
state untouched. -/
def PersonaSelector.getUniqueValuesS (st : PersonaSelector) :
    UniqueValues × PersonaSelector :=
  (st.unique_values, st)

/-! ### `prepare_dataframe` and `_convert_string_to_list`

A raw cell of the freshly loaded Excel sheet is a string, an integer, an
already-parsed list, or a missing value (`NaN`).  `prepare_dataframe`
validates the column set and then converts each of the three multi-valued
columns, but only when that column's dtype is `object`
(`if self.df[col].dtype == 'object'`).  pandas assigns a column `object`
dtype exactly when it stores Python objects — here, a string or a list in
at least one cell; `NaN` is a float, so an all-null (or numeric) column
gets a float/int dtype and the conversion pass skips it. -/

/-- One raw cell of the loaded sheet. -/
inductive Cell where
  | cstr (s : String)
  | cint (n : Int)
  | clist (l : List String)
  | cnan
deriving DecidableEq, Repr

/-- One raw row: a cell per required column. -/
structure RawRow where
  name : Cell
  age : Cell
  profession : Cell
  nationality : Cell
  salary_range : Cell
  hobbies : Cell
  priorities : Cell
  constraints : Cell
deriving DecidableEq, Repr

/-- The loaded sheet: the set of column labels present plus the rows. -/
structure RawDF where
  cols : List String
  rows : List RawRow
deriving DecidableEq, Repr

/-- The required columns of `prepare_dataframe`. -/
def requiredColumns : List String :=
  ["name", "age", "profession", "nationality",
   "salary_range", "hobbies", "priorities", "constraints"]

/-- Python's default `str.strip()` whitespace characters. -/
def isPySpace (c : Char) : Bool :=
  c = ' ' || c = '\t' || c = '\n' || c = '\r' || c = Char.ofNat 11 || c = Char.ofNat 12

/-- Strip characters satisfying `bad` from both ends (`str.strip(...)`). -/
def stripBy (bad : Char → Bool) (cs : List Char) : List Char :=
  ((cs.dropWhile bad).reverse.dropWhile bad).reverse

/-- Split at every comma (`str.split(',')`). -/
def splitComma : List Char → List (List Char)
  | [] => [[]]
  | c :: t =>
    if c = ',' then [] :: splitComma t
    else
      match splitComma t with
      | h :: r => (c :: h) :: r
      | [] => [[c]]

/-- The strip set of `value.strip("[]'\"")`. -/
def bracketQuote (c : Char) : Bool :=
  c = '[' || c = ']' || c = '\'' || c = '"'

/-- `_convert_string_to_list`: lists pass through, missing/empty values become
`[]`, strings are cleaned of brackets and quotes and split on commas
(blank items dropped), anything else becomes `[]`. -/
def convertStringToList (v : Cell) : List String :=
  match v with
  | Cell.clist l => l
  | Cell.cnan => []
  | Cell.cstr s =>
    if s = "" then []
    else
      let cleaned := ((stripBy bracketQuote s.data).filter
        (fun c => !(c = '\'' || c = '"')))
      ((splitComma cleaned).map (stripBy isPySpace)).filterMap
        (fun item => if item.isEmpty then none else some (String.mk item))
  | Cell.cint _ => []

/-- Does a cell hold a Python object (a string or an already-parsed list)?
`NaN` and integers are numeric, not objects. -/
def Cell.isObject : Cell → Bool
  | Cell.cstr _ => true
  | Cell.clist _ => true
  | Cell.cint _ => false
  | Cell.cnan => false

/-- Whether a whole column has pandas dtype `object`: at least one cell holds
a string or a list.  An all-null column is `float64` (`NaN` is a float), a
numeric column is `int64`/`float64` — neither is `object`. -/
def colIsObject (cells : List Cell) : Bool :=
  cells.any Cell.isObject

/-- Normalize the three multi-valued cells of one row; each cell is converted
only when its whole column has `object` dtype (the three flags, computed
once per column from the loaded sheet). -/
def normalizeRow (bh bp bc : Bool) (r : RawRow) : RawRow :=
  { r with
    hobbies := if bh then Cell.clist (convertStringToList r.hobbies) else r.hobbies
    priorities := if bp then Cell.clist (convertStringToList r.priorities) else r.priorities
    constraints := if bc then Cell.clist (convertStringToList r.constraints) else r.constraints }

/-- `prepare_dataframe`: fail (`ValueError`) when a required column is absent;
otherwise convert each multi-valued column cell-by-cell, but only when the
column's dtype is `object` (`if self.df[col].dtype == 'object'`) — an
all-null or numeric column is left untouched.  No null check is performed
on any cell. -/
def prepareDataframe (df : RawDF) : Except String RawDF :=
  if (requiredColumns.filter (fun col => !df.cols.contains col)).isEmpty then
    Except.ok { df with rows := df.rows.map (normalizeRow
      (colIsObject (df.rows.map RawRow.hobbies))
      (colIsObject (df.rows.map RawRow.priorities))
      (colIsObject (df.rows.map RawRow.constraints))) }
  else
    Except.error ("Missing required columns: " ++
      String.intercalate ", " (requiredColumns.filter (fun col => !df.cols.contains col)))

/-! ### `ProductReviewer._initialize_model` (configuration merge) -/

/-- The two supported backends (`AIProvider`). -/
inductive AIProvider where
  | gemini
  | openai
deriving DecidableEq, Repr

/-- A backend configuration value: a string (model name, credential) or a
number (sampling temperature — Python floats are modelled as rationals). -/
inductive ConfigVal where
  | vstr (s : String)
  | vnum (q : ℚ)
deriving DecidableEq, Repr

/-- The backend-specific `default_config` of `_initialize_model` (the
credential is part of the defaults, under a backend-specific key). -/
def defaultConfig (p : AIProvider) (apiKey : String) : List (String × ConfigVal) :=
  match p with
  | AIProvider.gemini =>
    [("model", ConfigVal.vstr "gemini-1.5-pro"),
     ("temperature", ConfigVal.vnum (7 / 10)),
     ("google_api_key", ConfigVal.vstr apiKey)]
  | AIProvider.openai =>
    [("model", ConfigVal.vstr "gpt-4o-mini"),
     ("temperature", ConfigVal.vnum (7 / 10)),
     ("openai_api_key", ConfigVal.vstr apiKey)]

/-- The effective configuration `config = {**default_config, **self.model_config}`
built by `_initialize_model` and passed to the backend client constructor. -/
def initializeModelConfig (p : AIProvider) (apiKey : String)
    (modelConfig : List (String × ConfigVal)) : List (String × ConfigVal) :=
  dictMerge (defaultConfig p apiKey) modelConfig

/-! ### `Manager.generate_product_reviews` (`backend/manger.py`)

The per-persona provider call is an external effect; it is modelled as a
function from the persona to `Except`, `Except.error` standing for the
exception the call may raise.  Provider construction is likewise an
`Except` input.  The summarizer (`ReviewSummarizer.summarize_reviews`)
catches every exception internally and always returns a summary, so it is
modelled as a total function. -/

/-- One message of a `ReviewSession` history. -/
structure Message where
  role : String
  content : String
  timestamp : String
deriving DecidableEq, Repr

/-- `ReviewSession` (from `utils.py`): message history plus final review. -/
structure ReviewSession where
  messages : List Message
  final_review : Option String
deriving DecidableEq, Repr

/-- The persona sub-dictionary stored in each review entry (the code reports
seven of the eight fields; `constraints` is not included). -/
structure PersonaInfo where
  name : String
  age : Int
  profession : String
  nationality : String
  salary_range : String
  hobbies : List String
  priorities : List String
deriving DecidableEq, Repr

/-- One entry of the `reviews` list built by the loop. -/
structure ReviewEntry where
  persona : PersonaInfo
  review : Option String
  timestamp : Option String
deriving DecidableEq, Repr

/-- The persona sub-dictionary built from a selected persona. -/
def personaInfoOf (p : Persona) : PersonaInfo :=
  { name := p.name, age := p.age, profession := p.profession
    nationality := p.nationality, salary_range := p.salary_range
    hobbies := p.hobbies, priorities := p.priorities }

/-- The entry appended for a persona whose generation call succeeded. -/
def mkReviewEntry (p : Persona) (s : ReviewSession) : ReviewEntry :=
  { persona := personaInfoOf p
    review := s.final_review
    timestamp := (s.messages.getLast?).map Message.timestamp }

/-- Whether a fallible call succeeded. -/
def isOkE {ε α : Type} : Except ε α → Bool
  | Except.ok _ => true
  | Except.error _ => false

/-- The per-persona loop: on success append the entry, on exception log and
continue with the next persona. -/
def collectReviews (gen : Persona → Except String ReviewSession) :
    List Persona → List ReviewEntry
  | [] => []
  | p :: t =>
    match gen p with
    | Except.ok s => mkReviewEntry p s :: collectReviews gen t
    | Except.error _ => collectReviews gen t

/-- `Product` (name/price/description plus optional bulleted sections). -/
structure Product where
  name : String
  price : String
  description : String
  strengths : Option (List String) := none
  weaknesses : Option (List String) := none
  unique_features : Option (List String) := none
deriving DecidableEq, Repr

/-- The product sub-dictionary of the result (`category` is read with
`getattr(product, 'category', 'N/A')` and `Product` has no such attribute,
so it is always `"N/A"`). -/
structure ProductInfo where
  name : String
  description : String
  price : String
  category : String
deriving DecidableEq, Repr

/-- `ReviewConfiguration` (the fields the orchestration loop consumes). -/
structure ReviewConfiguration where
  persona_criteria : PersonaSelectionCriteria
  num_personas : Nat
  ai_provider : String
  api_key : String
  randomize_if_insufficient : Bool := true

/-- The metadata sub-dictionary of the result. -/
structure RunMetadata where
  total_personas : Nat
  successful_reviews : Nat
  ai_provider : String
deriving DecidableEq, Repr

/-- The dictionary returned by `generate_product_reviews` (`σ` is the
summarizer's output type). -/
structure RunResult (σ : Type) where
  product : ProductInfo
  summary : σ
  metadata : RunMetadata

/-- `Manager.generate_product_reviews`: select personas, construct the
provider, run the per-persona loop (per-persona failures logged and
skipped), summarize, and return product info, summary and metadata.
Failures of selection or of provider construction abort the whole call
(the surrounding `try` re-raises). -/
def generateProductReviews {σ : Type} (selector : PersonaSelector)
    (product : Product) (config : ReviewConfiguration)
    (mkProvider : Except String Unit)
    (gen : Persona → Except String ReviewSession)
    (summarize : List (Option String) → σ)
    (rnd : Nat → Draws) (sampleKey : Nat → Nat) :
    Except String (RunResult σ) := do
  let selectedPersonas ←
    match (selector.getSelectedPersonasS config.persona_criteria config.num_personas
        config.randomize_if_insufficient rnd sampleKey).1 with
    | some ps => Except.ok ps
    | none => Except.error "Error getting selected personas"
  let _ ← mkProvider
  let reviews := collectReviews gen selectedPersonas
  let productInfo : ProductInfo :=
    { name := product.name, description := product.description
      price := product.price, category := "N/A" }
  let summary := summarize (reviews.map ReviewEntry.review)
  Except.ok
    { product := productInfo
      summary := summary
      metadata :=
        { total_personas := selectedPersonas.length
          successful_reviews := reviews.length
          ai_provider := config.ai_provider } }

/-! ### A model of the JSON layer used by `ReviewSummary`

`ReviewSummary.from_json` feeds the model output to
`json.JSONDecoder().raw_decode`, and `to_json` uses `json.dumps`.  The JSON
value space and the decoder are modelled below.  Restrictions of the model
(none of which the claims under study depend on):

* JSON numbers are integers (Python also decodes fractional/exponent floats
  and the constants `NaN`/`Infinity`);
* `\uXXXX` escapes in the surrogate range are rejected (Lean `Char` cannot
  represent lone surrogates, which Python strings admit);
* the renderer emits the compact form and escapes only what must be escaped
  (Python's `dumps(indent=2)` additionally inserts whitespace, which the
  decoder skips, and escapes non-ASCII characters — a different but
  equivalent valid encoding of the same value).

Python `dict`s cannot hold duplicate keys, so decoded objects accumulate
their members with Python's dict-assignment semantics (`fieldsInsert`:
later duplicate keys overwrite in place). -/

mutual
/-- A decoded JSON value. -/
inductive Json where
  | jnull
  | jbool (b : Bool)
  | jnum (n : Int)
  | jstr (cs : List Char)
  | jarr (items : JsonList)
  | jobj (fields : JsonFields)
deriving Repr
/-- The element list of a JSON array. -/
inductive JsonList where
  | nil
  | cons (hd : Json) (tl : JsonList)
deriving Repr
/-- The ordered members of a JSON object. -/
inductive JsonFields where
  | nil
  | cons (key : List Char) (val : Json) (tl : JsonFields)
deriving Repr
end

/-- The member keys of an object, in order. -/
def JsonFields.keys : JsonFields → List (List Char)
  | JsonFields.nil => []
  | JsonFields.cons k _ t => k :: JsonFields.keys t

/-- Dictionary lookup among the members. -/
def JsonFields.lookupF : JsonFields → List Char → Option Json
  | JsonFields.nil, _ => none
  | JsonFields.cons k0 v0 t, k => if k0 = k then some v0 else JsonFields.lookupF t k

/-- Python dict assignment on object members: overwrite in place when the key
exists, append otherwise. -/
def fieldsInsert : JsonFields → List Char → Json → JsonFields
  | JsonFields.nil, k, v => JsonFields.cons k v JsonFields.nil
  | JsonFields.cons k0 v0 t, k, v =>
    if k0 = k then JsonFields.cons k0 v t
    else JsonFields.cons k0 v0 (fieldsInsert t k v)

/-- Concatenation of member lists. -/
def JsonFields.app : JsonFields → JsonFields → JsonFields
  | JsonFields.nil, g => g
  | JsonFields.cons k v t, g => JsonFields.cons k v (JsonFields.app t g)

/-- Skip JSON whitespace (`' '`, `'\t'`, `'\n'`, `'\r'`). -/
def skipWs : List Char → List Char
  | [] => []
  | c :: t => if c = ' ' || c = '\t' || c = '\n' || c = '\r' then skipWs t else c :: t

/-- Value of one hex digit. -/
def hexVal (c : Char) : Option Nat :=
  if 48 ≤ c.toNat && c.toNat ≤ 57 then some (c.toNat - 48)
  else if 97 ≤ c.toNat && c.toNat ≤ 102 then some (c.toNat - 87)
  else if 65 ≤ c.toNat && c.toNat ≤ 70 then some (c.toNat - 55)
  else none

/-- The two-character escape table of the JSON string grammar. -/
def escCharTable (e : Char) : Option Char :=
  if e = '"' then some '"'
  else if e = '\\' then some '\\'
  else if e = '/' then some '/'
  else if e = 'b' then some (Char.ofNat 8)
  else if e = 'f' then some (Char.ofNat 12)
  else if e = 'n' then some '\n'
  else if e = 'r' then some (Char.ofNat 13)
  else if e = 't' then some '\t'
  else none

/-- Parse the body of a JSON string literal (the opening quote already
consumed): returns the decoded characters and the input after the closing
quote.  Raw control characters are rejected (the decoder's strict mode). -/
def parseStr : List Char → Option (List Char × List Char)
  | [] => none
  | c :: t =>
    if c = '"' then some ([], t)
    else if c = '\\' then
      match t with
      | 'u' :: h1 :: h2 :: h3 :: h4 :: t4 => do
        let v1 ← hexVal h1
        let v2 ← hexVal h2
        let v3 ← hexVal h3
        let v4 ← hexVal h4
        let n := ((v1 * 16 + v2) * 16 + v3) * 16 + v4
        if 55296 ≤ n && n ≤ 57343 then none
        else (parseStr t4).map (fun p => (Char.ofNat n :: p.1, p.2))
      | e :: t2 =>
        match escCharTable e with
        | some ch => (parseStr t2).map (fun p => (ch :: p.1, p.2))
        | none => none
      | [] => none
    else if c.toNat < 32 then none
    else (parseStr t).map (fun p => (c :: p.1, p.2))

/-- Numeric value of a digit character. -/
def digitVal (c : Char) : Nat := c.toNat - 48

/-- Value of a digit string, most significant first. -/
def digitsToNat (ds : List Char) : Nat :=
  ds.foldl (fun a c => a * 10 + digitVal c) 0

/-- Parse a JSON unsigned integer: `0`, or a nonzero digit followed by digits
(leading zeros stop the literal, as in the JSON number grammar). -/
def parseNat : List Char → Option (Nat × List Char)
  | [] => none
  | c :: t =>
    if c = '0' then some (0, t)
    else if c.isDigit then
      some (digitsToNat (c :: t.takeWhile Char.isDigit), t.dropWhile Char.isDigit)
    else none

/-- Parse a JSON integer (an optional minus sign then an unsigned integer). -/
def parseNum : List Char → Option (Int × List Char)
  | [] => none
  | c :: t =>
    if c = '-' then (parseNat t).map (fun p => (-(p.1 : Int), p.2))
    else (parseNat (c :: t)).map (fun p => ((p.1 : Int), p.2))

/-- The body of one step of the JSON value parser, parameterized by the
continuations used for nested members and elements (instantiated with the
fueled parsers one level down).  No leading whitespace is skipped, exactly
as `raw_decode` at index 0. -/
def parseValueB (pm : JsonFields → List Char → Option (JsonFields × List Char))
    (pi : List Char → Option (JsonList × List Char)) (s : List Char) :
    Option (Json × List Char) :=
  match s with
  | [] => none
  | c :: t =>
    if c = '{' then
      match skipWs t with
      | '}' :: r => some (Json.jobj JsonFields.nil, r)
      | t1 =>
        match pm JsonFields.nil t1 with
        | none => none
        | some (f, r) => some (Json.jobj f, r)
    else if c = '[' then
      match skipWs t with
      | ']' :: r => some (Json.jarr JsonList.nil, r)
      | t1 =>
        match pi t1 with
        | none => none
        | some (l, r) => some (Json.jarr l, r)
    else if c = '"' then
      match parseStr t with
      | none => none
      | some (cs, r) => some (Json.jstr cs, r)
    else
      match s with
      | 'n' :: 'u' :: 'l' :: 'l' :: r => some (Json.jnull, r)
      | 't' :: 'r' :: 'u' :: 'e' :: r => some (Json.jbool true, r)
      | 'f' :: 'a' :: 'l' :: 's' :: 'e' :: r => some (Json.jbool false, r)
      | s2 =>
        match parseNum s2 with
        | none => none
        | some (n, r) => some (Json.jnum n, r)

/-- One step of the object-member parser (positioned at a key's opening
quote), accumulating members with dict-assignment semantics. -/
def parseMembersB (pm : JsonFields → List Char → Option (JsonFields × List Char))
    (pv : List Char → Option (Json × List Char)) (acc : JsonFields) (s : List Char) :
    Option (JsonFields × List Char) :=
  match s with
  | '"' :: t =>
    match parseStr t with
    | none => none
    | some (k, r1) =>
      match skipWs r1 with
      | ':' :: r2 =>
        match pv (skipWs r2) with
        | none => none
        | some (v, r3) =>
          match skipWs r3 with
          | ',' :: r4 => pm (fieldsInsert acc k v) (skipWs r4)
          | '}' :: r4 => some (fieldsInsert acc k v, r4)
          | _ => none
      | _ => none
  | _ => none

/-- One step of the array-element parser (positioned at the first element of
a non-empty array). -/
def parseItemsB (pi : List Char → Option (JsonList × List Char))
    (pv : List Char → Option (Json × List Char)) (s : List Char) :
    Option (JsonList × List Char) :=
  match pv s with
  | none => none
  | some (v, r1) =>
    match skipWs r1 with
    | ',' :: r2 =>
      match pi (skipWs r2) with
      | none => none
      | some (l, r) => some (JsonList.cons v l, r)
    | ']' :: r2 => some (JsonList.cons v JsonList.nil, r2)
    | _ => none

mutual
/-- The fueled JSON value parser: the fuel bounds the recursion depth and is
chosen large enough by `rawDecode`. -/
def parseValueF : Nat → List Char → Option (Json × List Char)
  | 0, _ => none
  | Nat.succ fuel, s => parseValueB (parseMembersF fuel) (parseItemsF fuel) s
/-- The fueled object-member parser. -/
def parseMembersF : Nat → JsonFields → List Char → Option (JsonFields × List Char)
  | 0, _, _ => none
  | Nat.succ fuel, acc, s => parseMembersB (parseMembersF fuel) (parseValueF fuel) acc s
/-- The fueled array-element parser. -/
def parseItemsF : Nat → List Char → Option (JsonList × List Char)
  | 0, _ => none
  | Nat.succ fuel, s => parseItemsB (parseItemsF fuel) (parseValueF fuel) s
end

/-- `json.JSONDecoder().raw_decode(s)`: decode one JSON value starting at the
very beginning of `s`, returning it together with the undecoded tail;
`none` models `JSONDecodeError`. -/
def rawDecode (s : List Char) : Option (Json × List Char) :=
  parseValueF (s.length + 1) s

/-! ### The renderer (model of `json.dumps`) -/

/-- Decimal digit character. -/
def digitChar (n : Nat) : Char :=
  match n with
  | 0 => '0' | 1 => '1' | 2 => '2' | 3 => '3' | 4 => '4'
  | 5 => '5' | 6 => '6' | 7 => '7' | 8 => '8' | _ => '9'

/-- Lower-case hex digit character. -/
def hexDigitChar (n : Nat) : Char :=
  match n with
  | 0 => '0' | 1 => '1' | 2 => '2' | 3 => '3' | 4 => '4'
  | 5 => '5' | 6 => '6' | 7 => '7' | 8 => '8' | 9 => '9'
  | 10 => 'a' | 11 => 'b' | 12 => 'c' | 13 => 'd' | 14 => 'e' | _ => 'f'

/-- Escape one character of a JSON string the way `json.dumps` does: quote and
backslash get two-character escapes, control characters get their short
escapes or `\u00XX`, everything else is emitted literally. -/
def escapeChar (c : Char) : List Char :=
  if c = '"' then ['\\', '"']
  else if c = '\\' then ['\\', '\\']
  else if c.toNat < 32 then
    if c = '\n' then ['\\', 'n']
    else if c = '\t' then ['\\', 't']
    else if c.toNat = 13 then ['\\', 'r']
    else if c.toNat = 8 then ['\\', 'b']
    else if c.toNat = 12 then ['\\', 'f']
    else ['\\', 'u', '0', '0', hexDigitChar (c.toNat / 16), hexDigitChar (c.toNat % 16)]
  else [c]

/-- Escape every character. -/
def escapeChars : List Char → List Char
  | [] => []
  | c :: t => escapeChar c ++ escapeChars t

/-- Render a JSON string literal. -/
def renderStr (cs : List Char) : List Char :=
  '"' :: (escapeChars cs ++ ['"'])

/-- Decimal digits of `n`, most significant first (the first argument is
fuel, instantiated with `n` itself). -/
def natDigsAux : Nat → Nat → List Char
  | 0, _ => []
  | Nat.succ fuel, n =>
    if n = 0 then [] else natDigsAux fuel (n / 10) ++ [digitChar (n % 10)]

/-- Decimal rendering of a natural number. -/
def renderNat (n : Nat) : List Char :=
  if n = 0 then ['0'] else natDigsAux n n

/-- Decimal rendering of an integer. -/
def renderInt (n : Int) : List Char :=
  if n < 0 then '-' :: renderNat n.natAbs else renderNat n.toNat

mutual
/-- Render a JSON value (compact form). -/
def render : Json → List Char
  | Json.jnull => ['n', 'u', 'l', 'l']
  | Json.jbool true => ['t', 'r', 'u', 'e']
  | Json.jbool false => ['f', 'a', 'l', 's', 'e']
  | Json.jnum n => renderInt n
  | Json.jstr cs => renderStr cs
  | Json.jarr items => '[' :: (renderItems items ++ [']'])
  | Json.jobj fields => '{' :: (renderFields fields ++ ['}'])
/-- Render array elements, comma-separated. -/
def renderItems : JsonList → List Char
  | JsonList.nil => []
  | JsonList.cons x JsonList.nil => render x
  | JsonList.cons x (JsonList.cons y t) =>
    render x ++ ',' :: renderItems (JsonList.cons y t)
/-- Render object members, comma-separated. -/
def renderFields : JsonFields → List Char
  | JsonFields.nil => []
  | JsonFields.cons k v JsonFields.nil => renderStr k ++ ':' :: render v
  | JsonFields.cons k v (JsonFields.cons k2 v2 t) =>
    (renderStr k ++ ':' :: render v) ++ ',' :: renderFields (JsonFields.cons k2 v2 t)
end

mutual
/-- Well-formed JSON value: every object inside has duplicate-free keys.
Exactly the values expressible by Python data (whose dicts cannot repeat
a key). -/
inductive Json.Wf : Json → Prop where
  | null : Json.Wf Json.jnull
  | bool (b : Bool) : Json.Wf (Json.jbool b)
  | num (n : Int) : Json.Wf (Json.jnum n)
  | str (cs : List Char) : Json.Wf (Json.jstr cs)
  | arr {items : JsonList} : JsonList.Wf items → Json.Wf (Json.jarr items)
  | obj {fields : JsonFields} : (JsonFields.keys fields).Nodup →
      JsonFields.Wf fields → Json.Wf (Json.jobj fields)
/-- All array elements well-formed. -/
inductive JsonList.Wf : JsonList → Prop where
  | nil : JsonList.Wf JsonList.nil
  | cons {hd : Json} {tl : JsonList} : Json.Wf hd → JsonList.Wf tl →
      JsonList.Wf (JsonList.cons hd tl)
/-- All member values well-formed. -/
inductive JsonFields.Wf : JsonFields → Prop where
  | nil : JsonFields.Wf JsonFields.nil
  | cons {k : List Char} {v : Json} {t : JsonFields} : Json.Wf v → JsonFields.Wf t →
      JsonFields.Wf (JsonFields.cons k v t)
end

/-! ### `ReviewSummary` (`backend/review_summarizer.py`)

The dataclass annotations are not enforced at runtime — `cls(**data)` stores
whatever the decoded JSON object held — so each field is modelled as a JSON
value.  The two score fields are floats in Python; their fallback value
`0.0` is the JSON number `0` in this model. -/

/-- The nine-field structured summary. -/
structure ReviewSummary where
  overall_sentiment : Json
  purchase_intent_percentage : Json
  confidence_score : Json
  key_strengths : Json
  key_concerns : Json
  demographic_insights : Json
  common_themes : Json
  recommendation : Json
  detailed_summary : Json
deriving Repr

/-- The nine required field names, in declaration order. -/
def requiredKeys : List (List Char) :=
  ["overall_sentiment".data, "purchase_intent_percentage".data,
   "confidence_score".data, "key_strengths".data, "key_concerns".data,
   "demographic_insights".data, "common_themes".data,
   "recommendation".data, "detailed_summary".data]

/-- `cls(**data)`: succeeds exactly when the decoded object binds precisely
the nine dataclass fields — an unexpected key or a missing field raises
`TypeError` (caught by `from_json`). -/
def mkFromFields (fs : JsonFields) : Option ReviewSummary :=
  if (JsonFields.keys fs).all (fun k => requiredKeys.contains k) then
    match fs.lookupF "overall_sentiment".data, fs.lookupF "purchase_intent_percentage".data,
        fs.lookupF "confidence_score".data, fs.lookupF "key_strengths".data,
        fs.lookupF "key_concerns".data, fs.lookupF "demographic_insights".data,
        fs.lookupF "common_themes".data, fs.lookupF "recommendation".data,
        fs.lookupF "detailed_summary".data with
    | some v1, some v2, some v3, some v4, some v5, some v6, some v7, some v8, some v9 =>
      some
        { overall_sentiment := v1, purchase_intent_percentage := v2
          confidence_score := v3, key_strengths := v4, key_concerns := v5
          demographic_insights := v6, common_themes := v7
          recommendation := v8, detailed_summary := v9 }
    | _, _, _, _, _, _, _, _, _ => none
  else none

/-- The sentinel string of the fallback summary. -/
def unableJson : Json := Json.jstr "Unable to parse review".data

/-- The defined fallback `ReviewSummary` returned on any parsing failure. -/
def fallbackSummary : ReviewSummary :=
  { overall_sentiment := Json.jstr "Neutral".data
    purchase_intent_percentage := Json.jnum 0
    confidence_score := Json.jnum 0
    key_strengths := Json.jarr (JsonList.cons unableJson JsonList.nil)
    key_concerns := Json.jarr (JsonList.cons unableJson JsonList.nil)
    demographic_insights := Json.jobj (JsonFields.cons "error".data unableJson JsonFields.nil)
    common_themes := Json.jarr (JsonList.cons unableJson JsonList.nil)
    recommendation := Json.jstr "Unable to generate recommendation due to parsing error".data
    detailed_summary := Json.jstr "Unable to generate summary due to parsing error".data }

/-- Index of the first occurrence of a character (`str.find` returns `-1`,
modelled as `none`). -/
def findChar : List Char → Char → Option Nat
  | [], _ => none
  | c :: t, x => if c = x then some 0 else (findChar t x).map (fun i => i + 1)

/-- The slice `json_str[start_index:]` taken by `from_json`: from the first
brace when one exists; otherwise `start_index` is `-1` and the Python slice
keeps only the final character. -/
def pyExtract (s : List Char) : List Char :=
  match findChar s '{' with
  | some i => s.drop i
  | none => s.drop (s.length - 1)

/-- `ReviewSummary.from_json`: decode from the first brace onward; any
decoding failure, non-object value, or constructor `TypeError` is caught
and yields the fallback summary.  Total — the function never raises. -/
def from_json (s : List Char) : ReviewSummary :=
  match rawDecode (pyExtract s) with
  | some (Json.jobj fs, _) => (mkFromFields fs).getD fallbackSummary
  | _ => fallbackSummary

/-- The dictionary `self.__dict__` serialized by `to_json`: the nine fields
under their declared names, in declaration order. -/
def toJsonValue (r : ReviewSummary) : Json :=
  Json.jobj
    (JsonFields.cons "overall_sentiment".data r.overall_sentiment
    (JsonFields.cons "purchase_intent_percentage".data r.purchase_intent_percentage
    (JsonFields.cons "confidence_score".data r.confidence_score
    (JsonFields.cons "key_strengths".data r.key_strengths
    (JsonFields.cons "key_concerns".data r.key_concerns
    (JsonFields.cons "demographic_insights".data r.demographic_insights
    (JsonFields.cons "common_themes".data r.common_themes
    (JsonFields.cons "recommendation".data r.recommendation
    (JsonFields.cons "detailed_summary".data r.detailed_summary JsonFields.nil)))))))))

/-- `ReviewSummary.to_json`: `json.dumps(self.__dict__)` (the `indent=2`
whitespace is omitted by the model renderer; the decoder skips it). -/
def to_json (r : ReviewSummary) : List Char :=
  render (toJsonValue r)

/-- Python dict construction from ordered key/value pairs: assign each member
of `fields` into `acc` in order (duplicates overwrite in place). -/
def foldInsert (acc : JsonFields) : JsonFields → JsonFields
  | JsonFields.nil => acc
  | JsonFields.cons k v t => foldInsert (fieldsInsert acc k v) t

/-- A remainder that cannot extend a decimal literal (used to state where a
rendered number ends). -/
def numDelim : List Char → Prop
  | [] => True
  | c :: _ => c.isDigit = false

mutual
/-- Structural size of a JSON value (bounds the parser fuel it needs). -/
def Json.size : Json → Nat
  | Json.jnull => 1
  | Json.jbool _ => 1
  | Json.jnum _ => 1
  | Json.jstr _ => 1
  | Json.jarr items => JsonList.size items + 1
  | Json.jobj fields => JsonFields.size fields + 1
/-- Size of an element list. -/
def JsonList.size : JsonList → Nat
  | JsonList.nil => 0
  | JsonList.cons x t => Json.size x + JsonList.size t + 1
/-- Size of a member list. -/
def JsonFields.size : JsonFields → Nat
  | JsonFields.nil => 0
  | JsonFields.cons _ v t => Json.size v + JsonFields.size t + 1
end

/-! ### Concrete instances used by witnesses and counterexamples -/

/-- A real persona record used in concrete scenarios. -/
def mkPersonaNamed (nm : String) : Persona :=
  { name := nm, age := 30, profession := "Engineer", nationality := "Dutch"
    salary_range := "50k-70k", hobbies := ["reading"], priorities := ["value"]
    constraints := ["budget"] }

/-- Five selected personas for the partial-failure scenario. -/
def fiveDf : List Persona :=
  [mkPersonaNamed "P1", mkPersonaNamed "P2", mkPersonaNamed "P3",
   mkPersonaNamed "P4", mkPersonaNamed "P5"]

/-- A selector whose store holds the five personas. -/
def fiveSelector : PersonaSelector :=
  { df := fiveDf, unique_values := cacheUniqueValues fiveDf }

/-- A provider call that raises exactly on persona `P3`. -/
def failOnP3 : Persona → Except String ReviewSession :=
  fun p =>
    if p.name = "P3" then Except.error "API error"
    else Except.ok { messages := [], final_review := some ("review by " ++ p.name) }

/-- A configuration selecting five personas with no constraints. -/
def fiveConfig : ReviewConfiguration :=
  { persona_criteria := {}, num_personas := 5, ai_provider := "gemini"
    api_key := "", randomize_if_insufficient := false }

/-- A product for the concrete scenarios. -/
def monitorProduct : Product :=
  { name := "HP 24mh FHD Computer Monitor", price := "$179"
    description := "A 23.8-inch FHD monitor." }

/-- A raw sheet row whose scalar `name` cell is missing (`NaN`) and whose
`constraints` cell is also missing — as the only row, it makes the
`constraints` column all-null, hence of float (non-`object`) dtype. -/
def rowWithNullName : RawRow :=
  { name := Cell.cnan, age := Cell.cint 30, profession := Cell.cstr "Engineer"
    nationality := Cell.cstr "Dutch", salary_range := Cell.cstr "50k-70k"
    hobbies := Cell.cstr "[reading, hiking]", priorities := Cell.clist ["value"]
    constraints := Cell.cnan }

/-- A raw sheet with every required column yet a null `name` cell and an
all-null `constraints` column. -/
def dfWithNullName : RawDF :=
  { cols := requiredColumns, rows := [rowWithNullName] }

/-- The record `prepare_dataframe` produces from `dfWithNullName`: the
string-encoded `hobbies` and list `priorities` cells (object-dtype columns)
normalized to lists, the null scalar `name` and the all-null (float-dtype)
`constraints` cells untouched. -/
def loadedNullNameRow : RawRow :=
  { name := Cell.cnan, age := Cell.cint 30, profession := Cell.cstr "Engineer"
    nationality := Cell.cstr "Dutch", salary_range := Cell.cstr "50k-70k"
    hobbies := Cell.clist ["reading", "hiking"]
    priorities := Cell.clist ["value"], constraints := Cell.cnan }

/-- The sheet loaded from `dfWithNullName`. -/
def loadedNullNameDF : RawDF :=
  { cols := requiredColumns, rows := [loadedNullNameRow] }

/-- All-zero draw stream. -/
def zeroDraws : Nat → Draws := fun _ => Draws.zero

/-- All-zero sample key. -/
def zeroKey : Nat → Nat := fun _ => 0

/-- The one store record matching the spec's backfill scenario. -/
def softwareEngineer : Persona :=
  { name := "Ada", age := 30, profession := "Software engineer", nationality := "Dutch"
    salary_range := "50k-70k", hobbies := ["reading", "gaming"], priorities := ["value"]
    constraints := ["budget"] }

/-- A second record that fails the scenario's age filter. -/
def retiredTeacher : Persona :=
  { name := "Bea", age := 61, profession := "Teacher", nationality := "Dutch"
    salary_range := "30k-50k", hobbies := ["hiking"], priorities := ["comfort"]
    constraints := ["mobility"] }

/-- The scenario store. -/
def scenarioDf : List Persona := [softwareEngineer, retiredTeacher]

/-- The scenario catalog. -/
def scenarioUv : UniqueValues := cacheUniqueValues scenarioDf

/-- The spec's scenario criteria: age range (25, 35), professions allow-list
`["Software engineer"]`, `min_matching_hobbies = 1` with no desired set. -/
def scenarioCriteria : PersonaSelectionCriteria :=
  { age_range := some (25, 35), professions := some ["Software engineer"]
    min_matching_hobbies := 1 }

/-- A small catalog for backfill scenarios. -/
def smallUv : UniqueValues :=
  { professions := ["Engineer"], nationalities := ["Dutch"], salary_ranges := ["50k-70k"]
    hobbies := ["a", "b", "c", "d"], priorities := ["p", "q"], constraints := ["x", "y"] }

/-- Criteria whose hobby threshold exceeds the size of the desired set. -/
def overTightCriteria : PersonaSelectionCriteria :=
  { desired_hobbies := some ["a"], min_matching_hobbies := 2 }

/-- Criteria with a satisfiable hobby threshold. -/
def modestCriteria : PersonaSelectionCriteria :=
  { desired_hobbies := some ["a", "b"], min_matching_hobbies := 1 }

/-- A concrete summary whose nine fields are all the JSON number `0`. -/
def zeroSummary : ReviewSummary :=
  { overall_sentiment := Json.jnum 0
    purchase_intent_percentage := Json.jnum 0
    confidence_score := Json.jnum 0
    key_strengths := Json.jnum 0
    key_concerns := Json.jnum 0
    demographic_insights := Json.jnum 0
    common_themes := Json.jnum 0
    recommendation := Json.jnum 0
    detailed_summary := Json.jnum 0 }

/-! ## General lemmas about the primitive models -/

theorem pyRandint_some {lo hi a : Int} {seed : Nat} (h : pyRandint lo hi seed = some a) :
    lo ≤ a ∧ a ≤ hi := by
  unfold pyRandint at h
  split at h
  · rename_i hle
    have ha : lo + ((seed % (hi - lo + 1).toNat : Nat) : Int) = a := by
      injection h
    have hpos : 0 < (hi - lo + 1).toNat := by omega
    have hlt : seed % (hi - lo + 1).toNat < (hi - lo + 1).toNat := Nat.mod_lt _ hpos
    omega
  · cases h

theorem pyChoice_mem {α : Type} {l : List α} {seed : Nat} {a : α}
    (h : pyChoice l seed = some a) : a ∈ l :=
  List.get?_mem h

theorem pySample_length {α : Type} :
    ∀ (k : Nat) (l : List α) (key : Nat → Nat) (r : List α),
      pySample l k key = some r → r.length = k := by
  intro k
  induction k with
  | zero => intro l key r h; cases h; rfl
  | succ k ih =>
    intro l key r h
    cases l with
    | nil => cases h
    | cons a t =>
      simp only [pySample, Option.map_eq_some'] at h
      obtain ⟨r', hr', rfl⟩ := h
      simp [ih _ _ _ hr']

theorem pySample_subset {α : Type} :
    ∀ (k : Nat) (l : List α) (key : Nat → Nat) (r : List α),
      pySample l k key = some r → r ⊆ l := by
  intro k
  induction k with
  | zero => intro l key r h; cases h; intro x hx; cases hx
  | succ k ih =>
    intro l key r h
    cases l with
    | nil => cases h
    | cons a t =>
      simp only [pySample, Option.map_eq_some'] at h
      obtain ⟨r', hr', rfl⟩ := h
      intro x hx
      rcases List.mem_cons.mp hx with rfl | hx'
      · exact List.get_mem _ _ _
      · exact (List.eraseIdx_sublist _ _).subset (ih _ _ _ hr' hx')

theorem get_not_mem_eraseIdx {α : Type} :
    ∀ (l : List α) (i : Nat) (h : i < l.length), l.Nodup →
      l.get ⟨i, h⟩ ∉ l.eraseIdx i := by
  intro l
  induction l with
  | nil => intro i h; cases h
  | cons a t ih =>
    intro i h hnd
    rcases List.nodup_cons.mp hnd with ⟨ha, ht⟩
    cases i with
    | zero => simpa using ha
    | succ i =>
      simp only [List.eraseIdx_cons_succ, List.get_cons_succ, List.mem_cons]
      push_neg
      refine ⟨?_, ih i _ ht⟩
      intro heq
      exact ha (heq ▸ List.get_mem t _ _)

theorem pySample_nodup {α : Type} :
    ∀ (k : Nat) (l : List α) (key : Nat → Nat) (r : List α),
      l.Nodup → pySample l k key = some r → r.Nodup := by
  intro k
  induction k with
  | zero => intro l key r _ h; cases h; exact List.nodup_nil
  | succ k ih =>
    intro l key r hnd h
    cases l with
    | nil => cases h
    | cons a t =>
      simp only [pySample, Option.map_eq_some'] at h
      obtain ⟨r', hr', rfl⟩ := h
      refine List.nodup_cons.mpr ⟨?_, ih _ _ _ (hnd.sublist (List.eraseIdx_sublist _ _)) hr'⟩
      intro hmem
      exact get_not_mem_eraseIdx _ _ _ hnd (pySample_subset _ _ _ _ hr' hmem)

theorem pySample_isSome {α : Type} :
    ∀ (k : Nat) (l : List α) (key : Nat → Nat), k ≤ l.length →
      (pySample l k key).isSome = true := by
  intro k
  induction k with
  | zero => intro l key _; rfl
  | succ k ih =>
    intro l key hk
    cases l with
    | nil => simp at hk
    | cons a t =>
      have hcond : key 0 % (a :: t).length < (a :: t).length := Nat.mod_lt _ (Nat.succ_pos _)
      have hlen : ((a :: t).eraseIdx (key 0 % (a :: t).length)).length = t.length := by
        rw [List.length_eraseIdx (a :: t) (key 0 % (a :: t).length)]
        simp only [List.length_cons] at hcond ⊢
        simp [hcond]
      have hrec := ih ((a :: t).eraseIdx (key 0 % (a :: t).length)) (fun n => key (n + 1))
        (by simp only [hlen]; exact Nat.le_of_succ_le_succ hk)
      simp only [pySample]
      cases ho : pySample ((a :: t).eraseIdx (key 0 % (a :: t).length)) k (fun n => key (n + 1)) with
      | none => rw [ho] at hrec; cases hrec
      | some r => simp [ho]

theorem genSeq_length {uv : UniqueValues} {c : PersonaSelectionCriteria} {rnd : Nat → Draws} :
    ∀ (k : Nat) (ps : List Persona), genSeq uv c rnd k = some ps → ps.length = k := by
  intro k
  induction k with
  | zero => intro ps h; cases h; rfl
  | succ k ih =>
    intro ps h
    simp only [genSeq] at h
    cases hg : genSeq uv c rnd k with
    | none => rw [hg] at h; cases h
    | some ps' =>
      rw [hg] at h
      cases hp : genRandomPersona uv c (rnd k) with
      | none => rw [hp] at h; cases h
      | some p =>
        rw [hp] at h
        cases h
        simp [ih _ hg]

theorem insertDesc_length (score : Persona → Nat) (p : Persona) :
    ∀ l : List Persona, (insertDesc score p l).length = l.length + 1 := by
  intro l
  induction l with
  | nil => rfl
  | cons q t ih =>
    simp only [insertDesc]
    split
    · simp
    · simp [ih]

theorem sortDesc_length (score : Persona → Nat) :
    ∀ l : List Persona, (sortDesc score l).length = l.length := by
  intro l
  induction l with
  | nil => rfl
  | cons q t ih =>
    simp only [sortDesc, List.foldr_cons]
    rw [insertDesc_length]
    simp only [sortDesc] at ih
    simp [ih]

theorem mem_insertDesc {score : Persona → Nat} {p x : Persona} :
    ∀ {l : List Persona}, x ∈ insertDesc score p l ↔ x = p ∨ x ∈ l := by
  intro l
  induction l with
  | nil => simp [insertDesc]
  | cons q t ih =>
    simp only [insertDesc]
    split
    · simp [List.mem_cons]
    · simp only [List.mem_cons, ih]
      tauto

theorem mem_sortDesc {score : Persona → Nat} {x : Persona} :
    ∀ {l : List Persona}, x ∈ sortDesc score l ↔ x ∈ l := by
  intro l
  induction l with
  | nil => simp [sortDesc]
  | cons q t ih =>
    simp only [sortDesc, List.foldr_cons] at ih ⊢
    rw [mem_insertDesc]
    simp [ih]

theorem pdNlargest_length {n : Nat} {score : Persona → Nat} {l : List Persona}
    (h : n ≤ l.length) : (pdNlargest n score l).length = n := by
  simp [pdNlargest, sortDesc_length, h]

theorem pdNlargest_subset {n : Nat} {score : Persona → Nat} {l : List Persona} :
    pdNlargest n score l ⊆ l := by
  intro x hx
  exact mem_sortDesc.mp (List.take_subset _ _ hx)

theorem le_matchCount {seed xs desired : List String}
    (hnd : seed.Nodup) (hsubd : seed ⊆ desired) (hsubx : seed ⊆ xs) :
    seed.length ≤ matchCount xs desired := by
  have hss : seed ⊆ xs.dedup.filter (fun h => desired.contains h) := by
    intro x hx
    rw [List.mem_filter]
    refine ⟨List.mem_dedup.mpr (hsubx hx), ?_⟩
    have := hsubd hx
    simpa using this
  exact (List.subperm_of_subset hnd hss).length_le

theorem mem_step_filter {p : Persona} {df : List Persona} {pred : Persona → Bool}
    (h : p ∈ df.filter pred) : p ∈ df ∧ pred p = true :=
  ⟨List.mem_of_mem_filter h, List.of_mem_filter h⟩

theorem mem_filteredReal_satisfies {df : List Persona} {c : PersonaSelectionCriteria}
    {p : Persona} (h : p ∈ filteredReal df c) : satisfiesAllB c p = true := by
  unfold filteredReal at h
  have h5 : p ∈ stepHobby c (stepSal c (stepNat c (stepProf c (stepAge c df)))) ∧
      (!truthy c.desired_priorities ||
        decide (c.min_matching_priorities ≤ matchCount p.priorities
          (optList c.desired_priorities))) = true := by
    unfold stepPrio at h
    split at h
    · rename_i ht
      have := mem_step_filter h
      simp [this.1, this.2, ht]
    · rename_i ht
      simp only [Bool.not_eq_true] at ht
      simp [h, ht]
  have h4 : p ∈ stepSal c (stepNat c (stepProf c (stepAge c df))) ∧
      (!truthy c.desired_hobbies ||
        decide (c.min_matching_hobbies ≤ matchCount p.hobbies
          (optList c.desired_hobbies))) = true := by
    unfold stepHobby at h5
    rcases h5 with ⟨h5, _⟩
    split at h5
    · rename_i ht
      have := mem_step_filter h5
      simp [this.1, this.2, ht]
    · rename_i ht
      simp only [Bool.not_eq_true] at ht
      simp [h5, ht]
  have h3 : p ∈ stepNat c (stepProf c (stepAge c df)) ∧
      (!truthy c.salary_ranges || (optList c.salary_ranges).contains p.salary_range) = true := by
    unfold stepSal at h4
    rcases h4 with ⟨h4, _⟩
    split at h4
    · rename_i ht
      have := mem_step_filter h4
      refine ⟨this.1, ?_⟩
      simp only [ht, Bool.not_true, Bool.false_or]
      simpa using this.2
    · rename_i ht
      simp only [Bool.not_eq_true] at ht
      simp [h4, ht]
  have h2 : p ∈ stepProf c (stepAge c df) ∧
      (!truthy c.nationalities || (optList c.nationalities).contains p.nationality) = true := by
    unfold stepNat at h3
    rcases h3 with ⟨h3, _⟩
    split at h3
    · rename_i ht
      have := mem_step_filter h3
      refine ⟨this.1, ?_⟩
      simp only [ht, Bool.not_true, Bool.false_or]
      simpa using this.2
    · rename_i ht
      simp only [Bool.not_eq_true] at ht
      simp [h3, ht]
  have h1 : p ∈ stepAge c df ∧
      (!truthy c.professions || (optList c.professions).contains p.profession) = true := by
    unfold stepProf at h2
    rcases h2 with ⟨h2, _⟩
    split at h2
    · rename_i ht
      have := mem_step_filter h2
      refine ⟨this.1, ?_⟩
      simp only [ht, Bool.not_true, Bool.false_or]
      simpa using this.2
    · rename_i ht
      simp only [Bool.not_eq_true] at ht
      simp [h2, ht]
  have h0 : (match c.age_range with
      | some (lo, hi) => decide (lo ≤ p.age) && decide (p.age ≤ hi)
      | none => true) = true := by
    unfold stepAge at h1
    rcases h1 with ⟨h1, _⟩
    split at h1
    · rename_i lo hi heq
      have := mem_step_filter h1
      simp [heq, this.2]
    · rename_i heq
      simp [heq]
  unfold satisfiesAllB
  rw [h0, h1.2, h2.2, h3.2, h4.2, h5.2]
  rfl

/-! ## Dictionary-merge lemmas -/

theorem dictLookup_insert_self {α : Type} (d : List (String × α)) (k : String) (v : α) :
    dictLookup (dictInsert d k v) k = some v := by
  induction d with
  | nil => simp [dictInsert, dictLookup]
  | cons kv t ih =>
    obtain ⟨k0, v0⟩ := kv
    simp only [dictInsert]
    by_cases h : k0 = k
    · simp [h, dictLookup]
    · simp [h, dictLookup, ih]

theorem dictLookup_insert_ne {α : Type} (d : List (String × α)) (k : String) (v : α)
    (k' : String) (h : k ≠ k') :
    dictLookup (dictInsert d k v) k' = dictLookup d k' := by
  induction d with
  | nil => simp [dictInsert, dictLookup, h]
  | cons kv t ih =>
    obtain ⟨k0, v0⟩ := kv
    simp only [dictInsert]
    by_cases h0 : k0 = k
    · subst h0
      simp [dictLookup, h]
    · simp only [h0, if_false]
      by_cases h1 : k0 = k'
      · simp [dictLookup, h1]
      · simp [dictLookup, h1, ih]

theorem dictLookup_none_of_not_mem {α : Type} (d : List (String × α)) (k : String)
    (h : k ∉ dictKeys d) : dictLookup d k = none := by
  induction d with
  | nil => rfl
  | cons kv t ih =>
    obtain ⟨k0, v0⟩ := kv
    simp only [dictKeys, List.map_cons, List.mem_cons] at h
    push_neg at h
    simp only [dictLookup]
    rw [if_neg (by intro hh; exact h.1 hh.symm)]
    exact ih (by simpa [dictKeys] using h.2)

theorem dictMerge_lookup {α : Type} :
    ∀ (d2 d1 : List (String × α)) (k : String), (dictKeys d2).Nodup →
      dictLookup (dictMerge d1 d2) k =
        (dictLookup d2 k).orElse (fun _ => dictLookup d1 k) := by
  intro d2
  induction d2 with
  | nil => intro d1 k _; rfl
  | cons kv t ih =>
    intro d1 k hnd
    obtain ⟨k0, v0⟩ := kv
    have hnd0 : dictKeys ((k0, v0) :: t) = k0 :: dictKeys t := rfl
    rw [hnd0] at hnd
    have hnd' := List.nodup_cons.mp hnd
    have hstep : dictMerge d1 ((k0, v0) :: t) = dictMerge (dictInsert d1 k0 v0) t := rfl
    rw [hstep, ih _ k hnd'.2]
    by_cases hk : k0 = k
    · subst hk
      rw [dictLookup_none_of_not_mem t k0 hnd'.1]
      simp [dictLookup, dictLookup_insert_self]
    · simp only [dictLookup, hk, if_false]
      rw [dictLookup_insert_ne _ _ _ _ hk]

/-- Claim C8: the effective model configuration built by
`ProductReviewer._initialize_model` is the backend's defaults merged with the
caller overlay; for a key bound in the overlay the caller's value wins, and a
key bound only in the defaults keeps its default value. -/
theorem initializeModelConfig_merge (p : AIProvider) (apiKey : String)
    (overlay : List (String × ConfigVal)) (k : String)
    (hnd : (dictKeys overlay).Nodup) :
    (∀ v, dictLookup overlay k = some v →
      dictLookup (initializeModelConfig p apiKey overlay) k = some v) ∧
    (dictLookup overlay k = none →
      dictLookup (initializeModelConfig p apiKey overlay) k =
        dictLookup (defaultConfig p apiKey) k) := by
  have hm := dictMerge_lookup overlay (defaultConfig p apiKey) k hnd
  constructor
  · intro v hv
    rw [initializeModelConfig, hm, hv]
    rfl
  · intro hv
    rw [initializeModelConfig, hm, hv]
    rfl

/-- Witness for C8: a Gemini reviewer with a caller overlay; the overlay's
temperature wins, the untouched credential default survives. -/
theorem initializeModelConfig_merge_witness :
    dictLookup (initializeModelConfig AIProvider.gemini "KEY"
        [("temperature", ConfigVal.vnum 0), ("model", ConfigVal.vstr "gemini-exp")])
      "temperature" = some (ConfigVal.vnum 0) ∧
    dictLookup (initializeModelConfig AIProvider.gemini "KEY"
        [("temperature", ConfigVal.vnum 0), ("model", ConfigVal.vstr "gemini-exp")])
      "google_api_key" = some (ConfigVal.vstr "KEY") := by
  constructor
  · exact (initializeModelConfig_merge AIProvider.gemini "KEY"
      [("temperature", ConfigVal.vnum 0), ("model", ConfigVal.vstr "gemini-exp")]
      "temperature" (by decide)).1 (ConfigVal.vnum 0) (by decide)
  · have h := (initializeModelConfig_merge AIProvider.gemini "KEY"
      [("temperature", ConfigVal.vnum 0), ("model", ConfigVal.vstr "gemini-exp")]
      "google_api_key" (by decide)).2 (by decide)
    rw [h]
    decide

/-- Claim C9: after construction neither selection (including backfill) nor the
catalog operation mutates the selector's store or cached catalog, and the
catalog operation is idempotent: two calls with no reload in between return
equal field-to-distinct-values mappings. -/
theorem selector_state_frame (st : PersonaSelector) (c : PersonaSelectionCriteria)
    (n : Nat) (b : Bool) (rnd : Nat → Draws) (sk : Nat → Nat) :
    (st.getSelectedPersonasS c n b rnd sk).2 = st ∧
    st.getUniqueValuesS.2 = st ∧
    ((st.getSelectedPersonasS c n b rnd sk).2).getUniqueValuesS.1 = st.getUniqueValuesS.1 ∧
    (st.getUniqueValuesS.2).getUniqueValuesS.1 = st.getUniqueValuesS.1 :=
  ⟨rfl, rfl, rfl, rfl⟩

/-! ## The orchestration loop -/

theorem collectReviews_map_persona (gen : Persona → Except String ReviewSession) :
    ∀ ps : List Persona,
      (collectReviews gen ps).map ReviewEntry.persona =
        (ps.filter (fun p => isOkE (gen p))).map personaInfoOf := by
  intro ps
  induction ps with
  | nil => rfl
  | cons p t ih =>
    simp only [collectReviews, List.filter_cons]
    cases hg : gen p with
    | ok s => simp [isOkE, hg, ih, mkReviewEntry]
    | error e => simp [isOkE, hg, ih]

theorem collectReviews_length_le (gen : Persona → Except String ReviewSession) :
    ∀ ps : List Persona, (collectReviews gen ps).length ≤ ps.length := by
  intro ps
  induction ps with
  | nil => exact Nat.le_refl 0
  | cons p t ih =>
    simp only [collectReviews]
    cases gen p with
    | ok s => simpa using ih
    | error e => simp; omega

/-- Claim C4: the orchestrator's review loop never aborts on a per-persona
exception — when selection and provider construction succeed the call
returns; the successful entries appear in the same relative order as the
selected personas restricted to successes; and the metadata reports
`total_personas` equal to the number of selected personas and
`successful_reviews` equal to the number of successes, which never exceeds
the total. -/
theorem generateProductReviews_partialFailure {σ : Type} (selector : PersonaSelector)
    (product : Product) (config : ReviewConfiguration) (mkProvider : Except String Unit)
    (gen : Persona → Except String ReviewSession) (summarize : List (Option String) → σ)
    (rnd : Nat → Draws) (sampleKey : Nat → Nat) (ps : List Persona)
    (hsel : (selector.getSelectedPersonasS config.persona_criteria config.num_personas
        config.randomize_if_insufficient rnd sampleKey).1 = some ps)
    (hprov : mkProvider = Except.ok ()) :
    ∃ res : RunResult σ,
      generateProductReviews selector product config mkProvider gen summarize rnd sampleKey =
        Except.ok res ∧
      res.metadata.total_personas = ps.length ∧
      res.metadata.successful_reviews = (collectReviews gen ps).length ∧
      res.metadata.successful_reviews ≤ res.metadata.total_personas ∧
      (collectReviews gen ps).map ReviewEntry.persona =
        (ps.filter (fun p => isOkE (gen p))).map personaInfoOf := by
  have hrun : generateProductReviews selector product config mkProvider gen summarize
      rnd sampleKey = Except.ok
      { product :=
          { name := product.name
            description := product.description
            price := product.price
            category := "N/A" }
        summary := summarize ((collectReviews gen ps).map ReviewEntry.review)
        metadata :=
          { total_personas := ps.length
            successful_reviews := (collectReviews gen ps).length
            ai_provider := config.ai_provider } } := by
    unfold generateProductReviews
    rw [hsel, hprov]
    rfl
  exact ⟨_, hrun, rfl, rfl, collectReviews_length_le gen ps,
    collectReviews_map_persona gen ps⟩

/-- Witness for C4: the spec's concrete scenario — five selected personas,
the provider call raising on the third: four successful reviews in original
relative order excluding P3, metadata `total_personas = 5`,
`successful_reviews = 4`. -/
theorem generateProductReviews_partialFailure_witness :
    ∃ res : RunResult Nat,
      generateProductReviews fiveSelector monitorProduct fiveConfig (Except.ok ())
        failOnP3 (fun l => l.length) (fun _ => Draws.zero) (fun _ => 0) =
        Except.ok res ∧
      res.metadata.total_personas = 5 ∧
      res.metadata.successful_reviews = 4 ∧
      (collectReviews failOnP3 fiveDf).map ReviewEntry.persona =
        [personaInfoOf (mkPersonaNamed "P1"), personaInfoOf (mkPersonaNamed "P2"),
         personaInfoOf (mkPersonaNamed "P4"), personaInfoOf (mkPersonaNamed "P5")] := by
  obtain ⟨res, hrun, htot, hsucc, _, hord⟩ :=
    generateProductReviews_partialFailure (σ := Nat) fiveSelector monitorProduct fiveConfig
      (Except.ok ()) failOnP3 (fun l => l.length) (fun _ => Draws.zero) (fun _ => 0)
      fiveDf (by decide) rfl
  refine ⟨res, hrun, ?_, ?_, ?_⟩
  · rw [htot]; decide
  · rw [hsucc]; decide
  · rw [hord]; decide

/-! ## Persona store load (`prepare_dataframe`) -/

/-- Counterexample for C7 as stated: a sheet with every required column, a
null (`NaN`) `name` cell and an all-null `constraints` column loads
successfully — `prepare_dataframe` validates only the column set — and the
loaded record keeps both nulls: the scalar `name` cell is never inspected,
and the all-null `constraints` column has float (not `object`) dtype, so
the list-conversion pass skips it and the cell is not normalized to a
list. -/
theorem prepareDataframe_counterexample :
    prepareDataframe dfWithNullName = Except.ok loadedNullNameDF ∧
    loadedNullNameRow.name = Cell.cnan ∧
    loadedNullNameRow.constraints = Cell.cnan := by
  refine ⟨rfl, rfl, rfl⟩

/-- Claim C7 (amended): the load fails exactly when a required column is
missing; on success, each multi-valued column holding at least one string
or list value (pandas `object` dtype) is normalized cell-by-cell to lists,
while a multi-valued column with no such value (for example an all-null
column) is left untouched, and null scalar cells are not rejected and
survive in the loaded records (`name` is carried over unchanged). -/
theorem prepareDataframe_amended (df : RawDF) :
    (isOkE (prepareDataframe df) = true ↔
      requiredColumns.all (fun col => df.cols.contains col) = true) ∧
    (∀ out, prepareDataframe df = Except.ok out → ∀ r ∈ out.rows,
      (colIsObject (df.rows.map RawRow.hobbies) = true →
        ∃ l, r.hobbies = Cell.clist l) ∧
      (colIsObject (df.rows.map RawRow.priorities) = true →
        ∃ l, r.priorities = Cell.clist l) ∧
      (colIsObject (df.rows.map RawRow.constraints) = true →
        ∃ l, r.constraints = Cell.clist l)) ∧
    (∀ out, prepareDataframe df = Except.ok out → ∀ (i : Nat) (r0 r : RawRow),
      df.rows[i]? = some r0 → out.rows[i]? = some r →
      r.name = r0.name ∧
      (colIsObject (df.rows.map RawRow.constraints) = false →
        r.constraints = r0.constraints)) := by
  refine ⟨?_, ?_, ?_⟩
  · unfold prepareDataframe
    by_cases hall : requiredColumns.all (fun col => df.cols.contains col) = true
    · have hmiss : requiredColumns.filter (fun col => !df.cols.contains col) = [] := by
        rw [List.filter_eq_nil_iff]
        intro col hcol
        have := (List.all_eq_true.mp hall) col hcol
        simpa using this
      rw [hmiss]
      exact ⟨fun _ => hall, fun _ => rfl⟩
    · have hmiss : requiredColumns.filter (fun col => !df.cols.contains col) ≠ [] := by
        intro hh
        apply hall
        rw [List.all_eq_true]
        intro col hcol
        by_contra hc
        have hcmem : col ∈ requiredColumns.filter (fun c => !df.cols.contains c) := by
          rw [List.mem_filter]
          exact ⟨hcol, by simpa using hc⟩
        rw [hh] at hcmem
        cases hcmem
      rw [if_neg (by simpa using hmiss)]
      exact ⟨(fun h => nomatch h), (fun h => absurd h hall)⟩
  · intro out hout r hr
    rw [prepareDataframe] at hout
    split at hout
    · cases hout
      simp only [List.mem_map] at hr
      obtain ⟨r0, _, rfl⟩ := hr
      refine ⟨?_, ?_, ?_⟩
      · intro hb
        refine ⟨convertStringToList r0.hobbies, ?_⟩
        simp [normalizeRow, hb]
      · intro hp
        refine ⟨convertStringToList r0.priorities, ?_⟩
        simp [normalizeRow, hp]
      · intro hc
        refine ⟨convertStringToList r0.constraints, ?_⟩
        simp [normalizeRow, hc]
    · cases hout
  · intro out hout i r0 r h0 hr
    rw [prepareDataframe] at hout
    split at hout
    · cases hout
      rw [List.getElem?_map, h0] at hr
      injection hr with hr2
      subst hr2
      constructor
      · rfl
      · intro hcf
        simp [normalizeRow, hcf]
    · cases hout

/-- Witness for C7 (amended): the complete sheet with an all-null
`constraints` column loads; its string-encoded hobbies cell (the `hobbies`
column has `object` dtype) is normalized into a list, while the `name` and
non-`object` `constraints` cells are carried over unchanged. -/
theorem prepareDataframe_amended_witness :
    isOkE (prepareDataframe dfWithNullName) = true ∧
    (∃ l, (normalizeRow true true false rowWithNullName).hobbies = Cell.clist l) ∧
    (normalizeRow true true false rowWithNullName).name = rowWithNullName.name ∧
    (normalizeRow true true false rowWithNullName).constraints =
      rowWithNullName.constraints := by
  have h := prepareDataframe_amended dfWithNullName
  refine ⟨h.1.mpr (by decide), ?_, ?_⟩
  · exact (h.2.1 loadedNullNameDF rfl
      (normalizeRow true true false rowWithNullName) (by decide)).1 (by decide)
  · exact (h.2.2 loadedNullNameDF rfl 0 rowWithNullName
      (normalizeRow true true false rowWithNullName) rfl rfl).imp id
      (fun f => f (by decide))

/-! ## Selection: length and constraint satisfaction -/

/-- Claim C1: whenever `get_selected_personas` returns, the returned sequence
has length exactly `count` when backfill is enabled, and length
`min count (number of records matching the criteria)` when it is not. -/
theorem getSelectedPersonas_length (df : List Persona) (uv : UniqueValues)
    (c : PersonaSelectionCriteria) (n : Nat) (b : Bool) (rnd : Nat → Draws)
    (sk : Nat → Nat) (ps : List Persona)
    (h : getSelectedPersonas df uv c n b rnd sk = some ps) :
    ps.length = if b then n else min n (filteredReal df c).length := by
  unfold getSelectedPersonas at h
  obtain ⟨rows, hrows, rfl⟩ := Option.map_eq_some'.mp h
  rw [List.length_map]
  simp only [filterPersonas] at hrows
  by_cases hc1 : ((filteredReal df c).length < n && b) = true
  · rw [if_pos hc1] at hrows
    simp only [Bool.and_eq_true, decide_eq_true_eq] at hc1
    rcases hc1 with ⟨hlt, hb⟩
    cases hg : genSeq uv c rnd (n - (filteredReal df c).length) with
    | none =>
      rw [hg] at hrows
      cases hrows
    | some g =>
      rw [hg] at hrows
      simp only [Option.map_some'] at hrows
      have hglen := genSeq_length _ _ hg
      have hlen : ((filteredReal df c) ++ g).length = n := by
        rw [List.length_append, hglen]
        omega
      have hrows2 : (if n < ((filteredReal df c) ++ g).length then
          (if (truthy c.desired_hobbies || truthy c.desired_priorities) = true then
            some (pdNlargest n (totalScore c) ((filteredReal df c) ++ g))
          else pySample ((filteredReal df c) ++ g) n sk)
        else some ((filteredReal df c) ++ g)) = some rows := hrows
      rw [if_neg (by rw [hlen]; omega)] at hrows2
      cases hrows2
      rw [hlen, hb]
      simp
  · rw [if_neg hc1] at hrows
    have hrows2 : (if n < (filteredReal df c).length then
        (if (truthy c.desired_hobbies || truthy c.desired_priorities) = true then
          some (pdNlargest n (totalScore c) (filteredReal df c))
        else pySample (filteredReal df c) n sk)
      else some (filteredReal df c)) = some rows := hrows
    simp only [Bool.and_eq_true, decide_eq_true_eq, not_and] at hc1
    by_cases htrim : n < (filteredReal df c).length
    · rw [if_pos htrim] at hrows2
      have hminn : n ⊓ (filteredReal df c).length = n :=
        Nat.min_eq_left (Nat.le_of_lt htrim)
      split at hrows2
      · cases hrows2
        rw [pdNlargest_length (Nat.le_of_lt htrim)]
        cases b with
        | false => simp; omega
        | true => simp
      · have hlen := pySample_length _ _ _ _ hrows2
        rw [hlen]
        cases b with
        | false => simp; omega
        | true => simp
    · rw [if_neg htrim] at hrows2
      cases hrows2
      have hle : (filteredReal df c).length ≤ n := Nat.le_of_not_lt htrim
      cases b with
      | false => simp; omega
      | true =>
        have hge : ¬ (filteredReal df c).length < n := fun hh => (hc1 hh) rfl
        simp
        omega

/-- Witness for C1: the spec's backfill scenario — a store with one matching
record, `count = 3`, backfill enabled — returns exactly three personas. -/
theorem getSelectedPersonas_length_witness :
    ∃ ps, getSelectedPersonas scenarioDf scenarioUv scenarioCriteria 3 true
      zeroDraws zeroKey = some ps ∧ ps.length = 3 := by
  cases hps : getSelectedPersonas scenarioDf scenarioUv scenarioCriteria 3 true
      zeroDraws zeroKey with
  | none => exact absurd hps (by decide)
  | some ps =>
    refine ⟨ps, rfl, ?_⟩
    have := getSelectedPersonas_length scenarioDf scenarioUv scenarioCriteria 3 true
      zeroDraws zeroKey ps hps
    simpa using this

theorem filterPersonas_subset (df : List Persona) (uv : UniqueValues)
    (c : PersonaSelectionCriteria) (n : Nat) (b : Bool) (rnd : Nat → Draws)
    (sk : Nat → Nat) (rows : List Persona)
    (h : filterPersonas df uv c n b rnd sk = some rows) :
    rows ⊆ filteredReal df c ++ generatedOf df uv c n b rnd := by
  simp only [filterPersonas] at h
  unfold generatedOf
  by_cases hc1 : ((filteredReal df c).length < n && b) = true
  · rw [if_pos hc1] at h
    rw [if_pos hc1]
    cases hg : genSeq uv c rnd (n - (filteredReal df c).length) with
    | none =>
      rw [hg] at h
      cases h
    | some g =>
      rw [hg] at h
      simp only [Option.map_some'] at h
      simp only [Bool.and_eq_true, decide_eq_true_eq] at hc1
      have hglen := genSeq_length _ _ hg
      have hlen : ((filteredReal df c) ++ g).length = n := by
        rw [List.length_append, hglen]
        omega
      have h2 : (if n < ((filteredReal df c) ++ g).length then
          (if (truthy c.desired_hobbies || truthy c.desired_priorities) = true then
            some (pdNlargest n (totalScore c) ((filteredReal df c) ++ g))
          else pySample ((filteredReal df c) ++ g) n sk)
        else some ((filteredReal df c) ++ g)) = some rows := h
      rw [if_neg (by rw [hlen]; omega)] at h2
      cases h2
      exact List.Subset.refl _
  · rw [if_neg hc1] at h
    rw [if_neg hc1]
    have h2 : (if n < (filteredReal df c).length then
        (if (truthy c.desired_hobbies || truthy c.desired_priorities) = true then
          some (pdNlargest n (totalScore c) (filteredReal df c))
        else pySample (filteredReal df c) n sk)
      else some (filteredReal df c)) = some rows := h
    by_cases htrim : n < (filteredReal df c).length
    · rw [if_pos htrim] at h2
      split at h2
      · cases h2
        intro x hx
        exact List.mem_append_left _ (pdNlargest_subset hx)
      · intro x hx
        exact List.mem_append_left _ (pySample_subset _ _ _ _ h2 hx)
    · rw [if_neg htrim] at h2
      cases h2
      intro x hx
      exact List.mem_append_left _ hx

/-- Claim C2: every non-synthesized persona returned by
`get_selected_personas` satisfies every constraint present in the criteria —
age within the inclusive range, categorical fields in their given
allow-lists, and at least the minimum-match count of distinct common values
for each given desired set. -/
theorem getSelectedPersonas_realSatisfy (df : List Persona) (uv : UniqueValues)
    (c : PersonaSelectionCriteria) (n : Nat) (b : Bool) (rnd : Nat → Draws)
    (sk : Nat → Nat) (ps : List Persona)
    (h : getSelectedPersonas df uv c n b rnd sk = some ps) :
    ∀ p ∈ ps, p ∉ generatedOf df uv c n b rnd → satisfiesAllB c p = true := by
  obtain ⟨rows, hrows, rfl⟩ := Option.map_eq_some'.mp h
  intro p hp hnot
  have hp' : p ∈ rows := by
    rcases List.mem_map.mp hp with ⟨q, hq, hfq⟩
    have : fromSeries q = q := rfl
    rw [this] at hfq
    exact hfq ▸ hq
  rcases List.mem_append.mp (filterPersonas_subset _ _ _ _ _ _ _ _ hrows hp') with hF | hG
  · exact mem_filteredReal_satisfies hF
  · exact absurd hG hnot

/-- Witness for C2: in the backfill scenario the one real returned record
(the software engineer) satisfies the age and profession constraints. -/
theorem getSelectedPersonas_realSatisfy_witness :
    satisfiesAllB scenarioCriteria softwareEngineer = true := by
  cases hps : getSelectedPersonas scenarioDf scenarioUv scenarioCriteria 3 true
      zeroDraws zeroKey with
  | none => exact absurd hps (by decide)
  | some ps =>
    have hmem : softwareEngineer ∈
        (getSelectedPersonas scenarioDf scenarioUv scenarioCriteria 3 true
          zeroDraws zeroKey).getD [] := by decide
    have hnot : softwareEngineer ∉
        generatedOf scenarioDf scenarioUv scenarioCriteria 3 true zeroDraws := by decide
    rw [hps] at hmem
    exact getSelectedPersonas_realSatisfy scenarioDf scenarioUv scenarioCriteria 3 true
      zeroDraws zeroKey ps hps softwareEngineer (by simpa using hmem) hnot

/-! ## Synthesized personas (`_generate_random_persona`) -/

/-- Counterexample for C3 as stated: with desired hobbies `["a"]` and
`min_matching_hobbies = 2`, the synthesized persona shares only one value
with the desired set — the code seeds
`min(min_matching_hobbies, len(desired))` values, so when the threshold
exceeds the desired set's size the synthesized persona violates the
minimum-match constraint it is claimed to satisfy. -/
theorem genRandomPersona_counterexample :
    (genRandomPersona smallUv overTightCriteria Draws.zero).map
      (fun p => satisfiesAllB overTightCriteria p) = some false := by decide

/-- Claim C3 (amended): every persona synthesized by the backfill step has
its age within the requested range, its categorical fields drawn from the
truthy allow-lists, at least `min(threshold, size of the desired set)`
distinct members of each duplicate-free desired multi-valued set, and a
name of the form `RandomPersona_<1000..9999>` (distinguishable from real
names exactly insofar as no real persona uses that prefix). -/
theorem genRandomPersona_spec (uv : UniqueValues) (c : PersonaSelectionCriteria)
    (r : Draws) (p : Persona)
    (hndh : (optList c.desired_hobbies).Nodup)
    (hndp : (optList c.desired_priorities).Nodup)
    (hgen : genRandomPersona uv c r = some p) :
    (∀ lo hi, c.age_range = some (lo, hi) → lo ≤ p.age ∧ p.age ≤ hi) ∧
    (truthy c.professions = true → p.profession ∈ optList c.professions) ∧
    (truthy c.nationalities = true → p.nationality ∈ optList c.nationalities) ∧
    (truthy c.salary_ranges = true → p.salary_range ∈ optList c.salary_ranges) ∧
    (truthy c.desired_hobbies = true →
      min c.min_matching_hobbies (optList c.desired_hobbies).length ≤
        matchCount p.hobbies (optList c.desired_hobbies)) ∧
    (truthy c.desired_priorities = true →
      min c.min_matching_priorities (optList c.desired_priorities).length ≤
        matchCount p.priorities (optList c.desired_priorities)) ∧
    (∃ k, 1000 ≤ k ∧ k ≤ 9999 ∧ p.name = "RandomPersona_" ++ toString k) := by
  simp only [genRandomPersona, bind, Option.bind_eq_some, Option.pure_def,
    Option.some.injEq] at hgen
  obtain ⟨age, hage, prof, hprof, natl, hnatl, sal, hsal, seedH, hseedH, extH, hextH,
    seedP, hseedP, extP, hextP, consL, hcons, hp⟩ := hgen
  subst hp
  refine ⟨?_, ?_, ?_, ?_, ?_, ?_, ?_⟩
  · intro lo hi heq
    rw [drawAge, heq] at hage
    exact pyRandint_some hage
  · intro ht
    rw [if_pos ht] at hprof
    exact pyChoice_mem hprof
  · intro ht
    rw [if_pos ht] at hnatl
    exact pyChoice_mem hnatl
  · intro ht
    rw [if_pos ht] at hsal
    exact pyChoice_mem hsal
  · intro ht
    rw [drawHobbySeed, if_pos ht] at hseedH
    have hlen := pySample_length _ _ _ _ hseedH
    have hsubd := pySample_subset _ _ _ _ hseedH
    have hnd := pySample_nodup _ _ _ _ hndh hseedH
    have hsubx : seedH ⊆ seedH ++ extH := fun x hx => List.mem_append_left _ hx
    have := le_matchCount hnd hsubd hsubx
    rw [hlen] at this
    exact this
  · intro ht
    rw [drawPrioSeed, if_pos ht] at hseedP
    have hlen := pySample_length _ _ _ _ hseedP
    have hsubd := pySample_subset _ _ _ _ hseedP
    have hnd := pySample_nodup _ _ _ _ hndp hseedP
    have hsubx : seedP ⊆ seedP ++ extP := fun x hx => List.mem_append_left _ hx
    have := le_matchCount hnd hsubd hsubx
    rw [hlen] at this
    exact this
  · refine ⟨1000 + r.nameSeed % 9000, by omega, ?_, rfl⟩
    have : r.nameSeed % 9000 < 9000 := Nat.mod_lt _ (by omega)
    omega

/-- Witness for C3 (amended): a concrete backfill draw under satisfiable
criteria produces a persona meeting the clamped minimum-match bound, with
the synthetic name form. -/
theorem genRandomPersona_spec_witness :
    ∃ p, genRandomPersona smallUv modestCriteria Draws.zero = some p ∧
      min modestCriteria.min_matching_hobbies
        (optList modestCriteria.desired_hobbies).length ≤
        matchCount p.hobbies (optList modestCriteria.desired_hobbies) ∧
      (∃ k, 1000 ≤ k ∧ k ≤ 9999 ∧ p.name = "RandomPersona_" ++ toString k) := by
  cases hg : genRandomPersona smallUv modestCriteria Draws.zero with
  | none => exact absurd hg (by decide)
  | some p =>
    have hs := genRandomPersona_spec smallUv modestCriteria Draws.zero p
      (by decide) (by decide) hg
    exact ⟨p, rfl, hs.2.2.2.2.1 (by decide), hs.2.2.2.2.2.2⟩

/-! ## The summary parser: fallback behaviour -/

theorem lookupF_some_mem : ∀ {fs : JsonFields} {k : List Char} {v : Json},
    JsonFields.lookupF fs k = some v → k ∈ JsonFields.keys fs
  | JsonFields.nil, _, _, h => by cases h
  | JsonFields.cons k0 v0 t, k, v, h => by
    simp only [JsonFields.lookupF] at h
    by_cases hk : k0 = k
    · simp [JsonFields.keys, hk]
    · rw [if_neg hk] at h
      have hrec := lookupF_some_mem h
      simp [JsonFields.keys, hrec]

theorem fieldsInsert_keys_mem : ∀ (acc : JsonFields) (k : List Char) (v : Json),
    k ∈ JsonFields.keys acc →
    JsonFields.keys (fieldsInsert acc k v) = JsonFields.keys acc
  | JsonFields.nil, _, _, h => by cases h
  | JsonFields.cons k0 v0 t, k, v, h => by
    simp only [fieldsInsert]
    by_cases hk : k0 = k
    · rw [if_pos hk]
      rfl
    · rw [if_neg hk]
      simp only [JsonFields.keys] at h ⊢
      rcases List.mem_cons.mp h with h0 | h0
      · exact absurd h0.symm hk
      · rw [fieldsInsert_keys_mem t k v h0]

theorem fieldsInsert_keys_not_mem : ∀ (acc : JsonFields) (k : List Char) (v : Json),
    k ∉ JsonFields.keys acc →
    JsonFields.keys (fieldsInsert acc k v) = JsonFields.keys acc ++ [k]
  | JsonFields.nil, _, _, _ => rfl
  | JsonFields.cons k0 v0 t, k, v, h => by
    simp only [JsonFields.keys, List.mem_cons] at h
    push_neg at h
    simp only [fieldsInsert]
    rw [if_neg (fun hh => h.1 hh.symm)]
    simp only [JsonFields.keys, List.cons_append]
    rw [fieldsInsert_keys_not_mem t k v h.2]

theorem fieldsInsert_keys_nodup (acc : JsonFields) (k : List Char) (v : Json)
    (h : (JsonFields.keys acc).Nodup) :
    (JsonFields.keys (fieldsInsert acc k v)).Nodup := by
  by_cases hk : k ∈ JsonFields.keys acc
  · rw [fieldsInsert_keys_mem _ _ _ hk]
    exact h
  · rw [fieldsInsert_keys_not_mem _ _ _ hk]
    simp [List.nodup_append, h, hk]

theorem parseMembersF_nodup :
    ∀ (fuel : Nat) (acc : JsonFields) (s : List Char) (fs : JsonFields) (r : List Char),
      parseMembersF fuel acc s = some (fs, r) → (JsonFields.keys acc).Nodup →
        (JsonFields.keys fs).Nodup := by
  intro fuel
  induction fuel with
  | zero => intro acc s fs r h _; cases h
  | succ fuel ih =>
    intro acc s fs r h hnd
    have h1 : parseMembersB (parseMembersF fuel) (parseValueF fuel) acc s = some (fs, r) := h
    rw [parseMembersB.eq_def] at h1
    split at h1
    · split at h1
      · cases h1
      · split at h1
        · split at h1
          · cases h1
          · split at h1
            · exact ih _ _ _ _ h1 (fieldsInsert_keys_nodup _ _ _ hnd)
            · cases h1
              exact fieldsInsert_keys_nodup _ _ _ hnd
            · cases h1
        · cases h1
    · cases h1

theorem parseValueF_obj_nodup :
    ∀ (fuel : Nat) (s : List Char) (fs : JsonFields) (r : List Char),
      parseValueF fuel s = some (Json.jobj fs, r) → (JsonFields.keys fs).Nodup := by
  intro fuel
  cases fuel with
  | zero => intro s fs r h; cases h
  | succ fuel =>
    intro s fs r h
    have h1 : parseValueB (parseMembersF fuel) (parseItemsF fuel) s = some (Json.jobj fs, r) := h
    rw [parseValueB.eq_def] at h1
    split at h1
    · cases h1
    · rename_i c t
      by_cases hc : c = '{'
      · rw [if_pos hc] at h1
        split at h1
        · cases h1
          exact List.nodup_nil
        · split at h1
          · cases h1
          · rename_i f r2 hm
            cases h1
            exact parseMembersF_nodup _ _ _ _ _ hm List.nodup_nil
      · rw [if_neg hc] at h1
        by_cases hb : c = '['
        · rw [if_pos hb] at h1
          split at h1
          · cases h1
          · split at h1
            · cases h1
            · cases h1
        · rw [if_neg hb] at h1
          by_cases hq : c = '"'
          · rw [if_pos hq] at h1
            split at h1
            · cases h1
            · cases h1
          · rw [if_neg hq] at h1
            split at h1
            · cases h1
            · cases h1
            · cases h1
            · split at h1
              · cases h1
              · cases h1

theorem mkFromFields_none_of_not_perm {fs : JsonFields}
    (hnd : (JsonFields.keys fs).Nodup)
    (hnp : ¬ (JsonFields.keys fs).Perm requiredKeys) :
    mkFromFields fs = none := by
  cases hmk : mkFromFields fs with
  | none => rfl
  | some rs =>
    exfalso
    rw [mkFromFields] at hmk
    split at hmk
    · rename_i hall
      split at hmk
      · rename_i h1 h2 h3 h4 h5 h6 h7 h8 h9
        apply hnp
        have hsub1 : JsonFields.keys fs ⊆ requiredKeys := by
          intro k hk
          have := List.all_eq_true.mp hall k hk
          simpa using this
        have hsub2 : requiredKeys ⊆ JsonFields.keys fs := by
          intro k hk
          simp only [requiredKeys, List.mem_cons, List.not_mem_nil, or_false] at hk
          rcases hk with rfl | rfl | rfl | rfl | rfl | rfl | rfl | rfl | rfl
          · exact lookupF_some_mem h1
          · exact lookupF_some_mem h2
          · exact lookupF_some_mem h3
          · exact lookupF_some_mem h4
          · exact lookupF_some_mem h5
          · exact lookupF_some_mem h6
          · exact lookupF_some_mem h7
          · exact lookupF_some_mem h8
          · exact lookupF_some_mem h9
        exact (List.perm_ext_iff_of_nodup hnd (by decide)).mpr
          (fun a => ⟨fun hh => hsub1 hh, fun hh => hsub2 hh⟩)
      · cases hmk
    · cases hmk

/-- Claim C5: whenever no JSON value decodes from the brace-sliced input, or
the decoded value is not an object, or the object's keys are not exactly
the nine required fields, `ReviewSummary.from_json` does not raise and
returns the defined fallback summary. -/
theorem from_json_fallback (s : List Char)
    (h : rawDecode (pyExtract s) = none ∨
      ∃ v rest, rawDecode (pyExtract s) = some (v, rest) ∧
        ∀ fs, v = Json.jobj fs → ¬ (JsonFields.keys fs).Perm requiredKeys) :
    from_json s = fallbackSummary := by
  rcases h with hnone | ⟨v, rest, hdec, hnp⟩
  · unfold from_json
    rw [hnone]
  · unfold from_json
    rw [hdec]
    cases v with
    | jobj fs =>
      have hnd : (JsonFields.keys fs).Nodup :=
        parseValueF_obj_nodup ((pyExtract s).length + 1) _ _ _ hdec
      show (mkFromFields fs).getD fallbackSummary = fallbackSummary
      rw [mkFromFields_none_of_not_perm hnd (hnp fs rfl)]
      rfl
    | jnull => rfl
    | jbool b => rfl
    | jnum n => rfl
    | jstr cs => rfl
    | jarr l => rfl

/-- Witness for C5: plain prose — no JSON value decodes, and the parser
returns the fallback summary rather than raising. -/
theorem from_json_fallback_witness :
    rawDecode (pyExtract "I cannot help with that.".data) = none ∧
    from_json "I cannot help with that.".data = fallbackSummary :=
  ⟨rfl, from_json_fallback _ (Or.inl rfl)⟩

/-- Claim C10: an input that decodes to a JSON object carrying all nine
required summary fields plus at least one unexpected key still yields the
fallback summary — the `cls(**data)` call rejects the extra keyword instead
of ignoring it. -/
theorem from_json_extra_key (s : List Char) (fs : JsonFields) (rest : List Char)
    (hdec : rawDecode (pyExtract s) = some (Json.jobj fs, rest))
    (_hall : ∀ k ∈ requiredKeys, k ∈ JsonFields.keys fs)
    (hextra : ∃ k, k ∈ JsonFields.keys fs ∧ k ∉ requiredKeys) :
    from_json s = fallbackSummary := by
  obtain ⟨k, hkmem, hknot⟩ := hextra
  have hguard : ¬ ((JsonFields.keys fs).all (fun k => requiredKeys.contains k) = true) := by
    intro hallkeys
    have := List.all_eq_true.mp hallkeys k hkmem
    exact hknot (by simpa using this)
  have hmk : mkFromFields fs = none := by
    rw [mkFromFields, if_neg hguard]
  unfold from_json
  rw [hdec]
  show (mkFromFields fs).getD fallbackSummary = fallbackSummary
  rw [hmk]
  rfl

/-- Witness for C10: a well-formed object with the nine required fields plus
`extra_field` still produces the fallback summary. -/
theorem from_json_extra_key_witness :
    from_json ("\x7b\"overall_sentiment\": 0, \"purchase_intent_percentage\": 0, \"confidence_score\": 0, \"key_strengths\": 0, \"key_concerns\": 0, \"demographic_insights\": 0, \"common_themes\": 0, \"recommendation\": 0, \"detailed_summary\": 0, \"extra_field\": 0\x7d").data =
      fallbackSummary := by
  refine from_json_extra_key _
    (JsonFields.cons "overall_sentiment".data (Json.jnum 0)
    (JsonFields.cons "purchase_intent_percentage".data (Json.jnum 0)
    (JsonFields.cons "confidence_score".data (Json.jnum 0)
    (JsonFields.cons "key_strengths".data (Json.jnum 0)
    (JsonFields.cons "key_concerns".data (Json.jnum 0)
    (JsonFields.cons "demographic_insights".data (Json.jnum 0)
    (JsonFields.cons "common_themes".data (Json.jnum 0)
    (JsonFields.cons "recommendation".data (Json.jnum 0)
    (JsonFields.cons "detailed_summary".data (Json.jnum 0)
    (JsonFields.cons "extra_field".data (Json.jnum 0) JsonFields.nil))))))))))
    [] ?_ ?_ ?_
  · rfl
  · decide
  · exact ⟨"extra_field".data, by decide, by decide⟩

/-! ## Round trip of the renderer through the decoder: numbers -/

theorem digitVal_digitChar {d : Nat} (h : d < 10) : digitVal (digitChar d) = d := by
  interval_cases d <;> decide

theorem isDigit_digitChar {d : Nat} (h : d < 10) : (digitChar d).isDigit = true := by
  interval_cases d <;> decide

theorem digitChar_ne_zero {d : Nat} (h1 : 1 ≤ d) (h2 : d < 10) : digitChar d ≠ '0' := by
  interval_cases d <;> decide

theorem hexVal_hexDigitChar {m : Nat} (h : m < 16) : hexVal (hexDigitChar m) = some m := by
  interval_cases m <;> decide

theorem natDigsAux_zero : ∀ fuel : Nat, natDigsAux fuel 0 = [] := by
  intro fuel
  cases fuel with
  | zero => rfl
  | succ fuel => simp [natDigsAux]

theorem digitsToNat_append_one (xs : List Char) (c : Char) :
    digitsToNat (xs ++ [c]) = 10 * digitsToNat xs + digitVal c := by
  simp [digitsToNat, List.foldl_append]
  ring

theorem natDigsAux_spec : ∀ (fuel n : Nat), 0 < n → n ≤ fuel →
    (∀ c ∈ natDigsAux fuel n, c.isDigit = true) ∧
    digitsToNat (natDigsAux fuel n) = n ∧
    ∃ c cs, natDigsAux fuel n = c :: cs ∧ c ≠ '0' := by
  intro fuel
  induction fuel with
  | zero => intro n hn hle; omega
  | succ fuel ih =>
    intro n hn hle
    have hstep : natDigsAux (fuel + 1) n = natDigsAux fuel (n / 10) ++ [digitChar (n % 10)] := by
      rw [natDigsAux]
      rw [if_neg (by omega)]
    by_cases h10 : n / 10 = 0
    · have hlt : n < 10 := by omega
      have hmod : n % 10 = n := Nat.mod_eq_of_lt hlt
      rw [hstep, h10, natDigsAux_zero]
      refine ⟨?_, ?_, digitChar (n % 10), [], rfl, ?_⟩
      · intro c hc
        simp only [List.nil_append, List.mem_singleton] at hc
        subst hc
        exact isDigit_digitChar (Nat.mod_lt _ (by omega))
      · simp only [List.nil_append]
        have : digitsToNat [digitChar (n % 10)] = digitVal (digitChar (n % 10)) := by
          simp [digitsToNat]
        rw [this, hmod, digitVal_digitChar hlt]
      · exact digitChar_ne_zero (by omega) (by omega)
    · obtain ⟨hdig, hval, c, cs, heq, hc0⟩ := ih (n / 10) (Nat.pos_of_ne_zero h10) (by omega)
      rw [hstep]
      refine ⟨?_, ?_, c, cs ++ [digitChar (n % 10)], ?_, hc0⟩
      · intro x hx
        rcases List.mem_append.mp hx with hx | hx
        · exact hdig x hx
        · simp only [List.mem_singleton] at hx
          subst hx
          exact isDigit_digitChar (Nat.mod_lt _ (by omega))
      · rw [digitsToNat_append_one, hval, digitVal_digitChar (Nat.mod_lt _ (by omega))]
        omega
      · rw [heq, List.cons_append]

theorem takeWhile_append_all {α : Type} {p : α → Bool} :
    ∀ (xs r : List α), (∀ x ∈ xs, p x = true) →
      (match r with | [] => True | c :: _ => p c = false) →
      (xs ++ r).takeWhile p = xs ∧ (xs ++ r).dropWhile p = r := by
  intro xs
  induction xs with
  | nil =>
    intro r _ hr
    cases r with
    | nil => exact ⟨rfl, rfl⟩
    | cons c t =>
      simp only [] at hr
      simp [List.takeWhile_cons, List.dropWhile_cons, hr]
  | cons x xs ih =>
    intro r h hr
    have hx := h x (by simp)
    have hrec := ih r (fun y hy => h y (by simp [hy])) hr
    simp [List.takeWhile_cons, List.dropWhile_cons, hx, hrec.1, hrec.2]

theorem renderNat_head (n : Nat) :
    ∃ c cs, renderNat n = c :: cs ∧ c.isDigit = true := by
  by_cases h0 : n = 0
  · exact ⟨'0', [], by simp [renderNat, h0], rfl⟩
  · obtain ⟨hdig, _, c, cs, heq, _⟩ := natDigsAux_spec n n (by omega) (Nat.le_refl n)
    refine ⟨c, cs, ?_, ?_⟩
    · rw [renderNat, if_neg h0, heq]
    · exact hdig c (by rw [heq]; simp)

theorem parseNat_renderNat (n : Nat) (r : List Char) (hr : numDelim r) :
    parseNat (renderNat n ++ r) = some (n, r) := by
  by_cases h0 : n = 0
  · subst h0
    show parseNat ('0' :: r) = some (0, r)
    rfl
  · obtain ⟨hdig, hval, c, cs, heq, hc0⟩ := natDigsAux_spec n n (by omega) (Nat.le_refl n)
    rw [renderNat, if_neg h0, heq, List.cons_append]
    show (if c = '0' then some (0, cs ++ r)
      else if c.isDigit then
        some (digitsToNat (c :: (cs ++ r).takeWhile Char.isDigit),
          (cs ++ r).dropWhile Char.isDigit)
      else none) = some (n, r)
    have hcs : ∀ x ∈ cs, x.isDigit = true := fun x hx => hdig x (by rw [heq]; simp [hx])
    have htw := takeWhile_append_all cs r hcs (by
      cases r with
      | nil => trivial
      | cons c2 t2 => exact hr)
    rw [if_neg hc0, if_pos (hdig c (by rw [heq]; simp)), htw.1, htw.2]
    rw [show (c :: cs) = natDigsAux n n from heq.symm, hval]

theorem parseNum_renderInt (n : Int) (r : List Char) (hr : numDelim r) :
    parseNum (renderInt n ++ r) = some (n, r) := by
  rw [renderInt]
  by_cases hneg : n < 0
  · rw [if_pos hneg, List.cons_append]
    show (if '-' = '-' then
        (parseNat (renderNat n.natAbs ++ r)).map (fun p => (-(p.1 : Int), p.2))
      else (parseNat ('-' :: (renderNat n.natAbs ++ r))).map
        (fun p => ((p.1 : Int), p.2))) = some (n, r)
    rw [if_pos rfl, parseNat_renderNat n.natAbs r hr]
    simp only [Option.map_some']
    have : -((n.natAbs : Nat) : Int) = n := by omega
    rw [this]
  · rw [if_neg hneg]
    obtain ⟨c, cs, heq, hd⟩ := renderNat_head n.toNat
    rw [heq, List.cons_append]
    have hcm : c ≠ '-' := by
      intro hh
      subst hh
      cases hd
    show (if c = '-' then (parseNat (cs ++ r)).map (fun p => (-(p.1 : Int), p.2))
      else (parseNat (c :: (cs ++ r))).map (fun p => ((p.1 : Int), p.2))) = some (n, r)
    rw [if_neg hcm, ← List.cons_append, ← heq, parseNat_renderNat n.toNat r hr]
    simp only [Option.map_some']
    have : ((n.toNat : Nat) : Int) = n := by omega
    rw [this]

/-! ## Round trip: strings -/

theorem escapeChar_parse (c : Char) (r : List Char) :
    parseStr (escapeChar c ++ r) = (parseStr r).map (fun p => (c :: p.1, p.2)) := by
  rw [escapeChar]
  by_cases h1 : c = '"'
  · rw [if_pos h1]
    subst h1
    rw [parseStr.eq_def]
    rfl
  · rw [if_neg h1]
    by_cases h2 : c = '\\'
    · rw [if_pos h2]
      subst h2
      rw [parseStr.eq_def]
      rfl
    · rw [if_neg h2]
      by_cases h3 : c.toNat < 32
      · rw [if_pos h3]
        by_cases hn : c = '\n'
        · rw [if_pos hn]
          subst hn
          rw [parseStr.eq_def]
          rfl
        · rw [if_neg hn]
          by_cases htb : c = '\t'
          · rw [if_pos htb]
            subst htb
            rw [parseStr.eq_def]
            rfl
          · rw [if_neg htb]
            by_cases h13 : c.toNat = 13
            · rw [if_pos h13]
              have hc : c = Char.ofNat 13 := by rw [← h13, Char.ofNat_toNat]
              subst hc
              rw [parseStr.eq_def]
              rfl
            · rw [if_neg h13]
              by_cases h8 : c.toNat = 8
              · rw [if_pos h8]
                have hc : c = Char.ofNat 8 := by rw [← h8, Char.ofNat_toNat]
                subst hc
                rw [parseStr.eq_def]
                rfl
              · rw [if_neg h8]
                by_cases h12 : c.toNat = 12
                · rw [if_pos h12]
                  have hc : c = Char.ofNat 12 := by rw [← h12, Char.ofNat_toNat]
                  subst hc
                  rw [parseStr.eq_def]
                  rfl
                · rw [if_neg h12]
                  simp only [List.cons_append, List.nil_append]
                  rw [parseStr.eq_def]
                  show (do
                      let v1 ← hexVal '0'
                      let v2 ← hexVal '0'
                      let v3 ← hexVal (hexDigitChar (c.toNat / 16))
                      let v4 ← hexVal (hexDigitChar (c.toNat % 16))
                      let n := ((v1 * 16 + v2) * 16 + v3) * 16 + v4
                      if 55296 ≤ n && n ≤ 57343 then none
                      else (parseStr r).map (fun p => (Char.ofNat n :: p.1, p.2))) =
                    (parseStr r).map (fun p => (c :: p.1, p.2))
                  rw [show hexVal '0' = some 0 from rfl,
                    hexVal_hexDigitChar (show c.toNat / 16 < 16 by omega),
                    hexVal_hexDigitChar (show c.toNat % 16 < 16 by omega)]
                  show (if 55296 ≤ ((0 * 16 + 0) * 16 + c.toNat / 16) * 16 + c.toNat % 16 &&
                        ((0 * 16 + 0) * 16 + c.toNat / 16) * 16 + c.toNat % 16 ≤ 57343 then
                      none
                    else (parseStr r).map (fun p =>
                      (Char.ofNat (((0 * 16 + 0) * 16 + c.toNat / 16) * 16 + c.toNat % 16) ::
                        p.1, p.2))) = (parseStr r).map (fun p => (c :: p.1, p.2))
                  have hval : ((0 * 16 + 0) * 16 + c.toNat / 16) * 16 + c.toNat % 16 = c.toNat := by
                    omega
                  rw [hval, if_neg (by
                    simp only [Bool.and_eq_true, decide_eq_true_eq]
                    omega), Char.ofNat_toNat]
      · rw [if_neg h3]
        simp only [List.cons_append, List.nil_append]
        rw [parseStr.eq_def]
        split
        · simp_all
        · rename_i c2 t2 heq
          injection heq with hc ht
          subst hc
          subst ht
          rw [if_neg h1, if_neg h2, if_neg h3]

theorem escapeChars_parse : ∀ (cs r : List Char),
    parseStr (escapeChars cs ++ ('"' :: r)) = some (cs, r)
  | [], r => by
    show parseStr ('"' :: r) = some ([], r)
    rw [parseStr.eq_def]
    rfl
  | c :: cs, r => by
    rw [escapeChars, List.append_assoc, escapeChar_parse, escapeChars_parse cs r]
    rfl

/-! ## Round trip: structural support lemmas -/

theorem skipWs_cons_not_ws {c : Char} {t : List Char}
    (h : (c = ' ' || c = '\t' || c = '\n' || c = '\r') = false) :
    skipWs (c :: t) = c :: t := by
  rw [skipWs.eq_def]
  split
  · simp_all
  · rename_i c2 t2 heq
    injection heq with hc ht
    subst hc
    subst ht
    rw [if_neg (by simp [h])]

theorem head_ne_of_digit {c x : Char} (hd : c.isDigit = true) (hx : x.isDigit = false) :
    c ≠ x := by
  intro h
  subst h
  rw [hd] at hx
  cases hx

theorem not_ws_of_head {c : Char}
    (h : c = 'n' ∨ c = 't' ∨ c = 'f' ∨ c = '"' ∨ c = '[' ∨ c = '{' ∨ c = '-' ∨
      c.isDigit = true) :
    (c = ' ' || c = '\t' || c = '\n' || c = '\r') = false := by
  rcases h with rfl | rfl | rfl | rfl | rfl | rfl | rfl | hd
  · decide
  · decide
  · decide
  · decide
  · decide
  · decide
  · decide
  · have h1 : c ≠ ' ' := head_ne_of_digit hd (by decide)
    have h2 : c ≠ '\t' := head_ne_of_digit hd (by decide)
    have h3 : c ≠ '\n' := head_ne_of_digit hd (by decide)
    have h4 : c ≠ '\r' := head_ne_of_digit hd (by decide)
    simp [h1, h2, h3, h4]

theorem renderInt_head (n : Int) :
    ∃ c cs, renderInt n = c :: cs ∧ (c = '-' ∨ c.isDigit = true) := by
  rw [renderInt]
  by_cases hneg : n < 0
  · rw [if_pos hneg]
    exact ⟨'-', _, rfl, Or.inl rfl⟩
  · rw [if_neg hneg]
    obtain ⟨c, cs, heq, hd⟩ := renderNat_head n.toNat
    exact ⟨c, cs, heq, Or.inr hd⟩

theorem render_head (v : Json) : ∃ c cs, render v = c :: cs ∧
    (c = 'n' ∨ c = 't' ∨ c = 'f' ∨ c = '"' ∨ c = '[' ∨ c = '{' ∨ c = '-' ∨
      c.isDigit = true) := by
  cases v with
  | jnull => exact ⟨'n', _, by rw [render], by tauto⟩
  | jbool b =>
    cases b
    · exact ⟨'f', _, by rw [render], by tauto⟩
    · exact ⟨'t', _, by rw [render], by tauto⟩
  | jnum n =>
    obtain ⟨c, cs, heq, hd⟩ := renderInt_head n
    refine ⟨c, cs, ?_, ?_⟩
    · rw [render, heq]
    · rcases hd with rfl | hd
      · tauto
      · tauto
  | jstr cs => exact ⟨'"', _, by rw [render, renderStr], by tauto⟩
  | jarr items => exact ⟨'[', _, by rw [render], by tauto⟩
  | jobj fields => exact ⟨'{', _, by rw [render], by tauto⟩

theorem skipWs_render (v : Json) (x : List Char) :
    skipWs (render v ++ x) = render v ++ x := by
  obtain ⟨c, cs, heq, hd⟩ := render_head v
  rw [heq, List.cons_append]
  exact skipWs_cons_not_ws (not_ws_of_head hd)

theorem renderItems_cons_head (x : Json) (t : JsonList) :
    ∃ c cs, renderItems (JsonList.cons x t) = c :: cs ∧
      (c = 'n' ∨ c = 't' ∨ c = 'f' ∨ c = '"' ∨ c = '[' ∨ c = '{' ∨ c = '-' ∨
        c.isDigit = true) := by
  obtain ⟨c, cs, heq, hd⟩ := render_head x
  cases t with
  | nil => exact ⟨c, cs, by rw [renderItems, heq], hd⟩
  | cons y t2 =>
    refine ⟨c, cs ++ ',' :: renderItems (JsonList.cons y t2), ?_, hd⟩
    rw [renderItems, heq, List.cons_append]

theorem app_nil_right : ∀ a : JsonFields, JsonFields.app a JsonFields.nil = a
  | JsonFields.nil => rfl
  | JsonFields.cons k v t => by
    rw [JsonFields.app, app_nil_right t]

theorem app_assoc : ∀ a b c : JsonFields,
    JsonFields.app (JsonFields.app a b) c = JsonFields.app a (JsonFields.app b c)
  | JsonFields.nil, _, _ => rfl
  | JsonFields.cons k v t, b, c => by
    rw [JsonFields.app, JsonFields.app, app_assoc t b c, JsonFields.app]

theorem keys_app : ∀ a b : JsonFields,
    JsonFields.keys (JsonFields.app a b) = JsonFields.keys a ++ JsonFields.keys b
  | JsonFields.nil, _ => rfl
  | JsonFields.cons k v t, b => by
    rw [JsonFields.app, JsonFields.keys, JsonFields.keys, keys_app t b, List.cons_append]

theorem fieldsInsert_not_mem : ∀ (acc : JsonFields) (k : List Char) (v : Json),
    k ∉ JsonFields.keys acc →
    fieldsInsert acc k v = JsonFields.app acc (JsonFields.cons k v JsonFields.nil)
  | JsonFields.nil, _, _, _ => rfl
  | JsonFields.cons k0 v0 t, k, v, h => by
    have h0 : k0 ≠ k ∧ k ∉ JsonFields.keys t := by
      simp only [JsonFields.keys, List.mem_cons] at h
      push_neg at h
      exact ⟨fun hh => h.1 hh.symm, h.2⟩
    rw [fieldsInsert, if_neg h0.1, JsonFields.app, fieldsInsert_not_mem t k v h0.2]

theorem foldInsert_app : ∀ (fields acc : JsonFields),
    (JsonFields.keys fields).Nodup →
    (∀ k ∈ JsonFields.keys fields, k ∉ JsonFields.keys acc) →
    foldInsert acc fields = JsonFields.app acc fields
  | JsonFields.nil, acc, _, _ => by
    rw [foldInsert, app_nil_right]
  | JsonFields.cons k v t, acc, hnd, hdisj => by
    have hk : k ∉ JsonFields.keys acc := hdisj k (by rw [JsonFields.keys]; simp)
    have hnd2 := List.nodup_cons.mp (by rw [JsonFields.keys] at hnd; exact hnd)
    rw [foldInsert, fieldsInsert_not_mem acc k v hk]
    rw [foldInsert_app t _ hnd2.2 ?_]
    · rw [app_assoc]
      rfl
    · intro k2 hk2
      rw [keys_app]
      intro hmem
      rcases List.mem_append.mp hmem with hm | hm
      · exact hdisj k2 (by rw [JsonFields.keys]; simp [hk2]) hm
      · simp only [JsonFields.keys, List.mem_singleton] at hm
        subst hm
        exact hnd2.1 hk2

theorem foldInsert_nil {fields : JsonFields} (hnd : (JsonFields.keys fields).Nodup) :
    foldInsert JsonFields.nil fields = fields := by
  rw [foldInsert_app fields JsonFields.nil hnd (fun k _ => by
    rw [JsonFields.keys]
    simp)]
  rfl

theorem size_pos : ∀ v : Json, 1 ≤ Json.size v := by
  intro v
  cases v <;> rw [Json.size] <;> omega

theorem sizeL_pos_of_ne_nil {items : JsonList} (h : items ≠ JsonList.nil) :
    1 ≤ JsonList.size items := by
  cases items with
  | nil => exact absurd rfl h
  | cons x t => rw [JsonList.size]; omega

theorem sizeF_pos_of_ne_nil {fields : JsonFields} (h : fields ≠ JsonFields.nil) :
    1 ≤ JsonFields.size fields := by
  cases fields with
  | nil => exact absurd rfl h
  | cons k v t => rw [JsonFields.size]; omega

mutual
theorem size_le_renderLen : ∀ v : Json, Json.size v ≤ (render v).length
  | Json.jnull => by rw [render, Json.size]; simp
  | Json.jbool b => by
    cases b
    · rw [render, Json.size]; simp
    · rw [render, Json.size]; simp
  | Json.jnum n => by
    rw [render, Json.size]
    obtain ⟨c, cs, heq, _⟩ := renderInt_head n
    rw [heq]
    simp
  | Json.jstr cs => by
    rw [render, Json.size, renderStr]
    simp
  | Json.jarr items => by
    rw [render, Json.size]
    have h := sizeL_le_renderLen items
    simp only [List.length_cons, List.length_append, List.length_singleton]
    omega
  | Json.jobj fields => by
    rw [render, Json.size]
    have h := sizeF_le_renderLen fields
    simp only [List.length_cons, List.length_append, List.length_singleton]
    omega
theorem sizeL_le_renderLen : ∀ l : JsonList, JsonList.size l ≤ (renderItems l).length + 1
  | JsonList.nil => by rw [JsonList.size]; omega
  | JsonList.cons x JsonList.nil => by
    rw [JsonList.size, JsonList.size, renderItems]
    have h := size_le_renderLen x
    omega
  | JsonList.cons x (JsonList.cons y t) => by
    rw [JsonList.size, renderItems]
    have h1 := size_le_renderLen x
    have h2 := sizeL_le_renderLen (JsonList.cons y t)
    simp only [List.length_append, List.length_cons]
    omega
theorem sizeF_le_renderLen : ∀ f : JsonFields, JsonFields.size f ≤ (renderFields f).length + 1
  | JsonFields.nil => by rw [JsonFields.size]; omega
  | JsonFields.cons k v JsonFields.nil => by
    rw [JsonFields.size, JsonFields.size, renderFields]
    have h := size_le_renderLen v
    simp only [List.length_append, List.length_cons]
    omega
  | JsonFields.cons k v (JsonFields.cons k2 v2 t) => by
    rw [JsonFields.size, renderFields]
    have h1 := size_le_renderLen v
    have h2 := sizeF_le_renderLen (JsonFields.cons k2 v2 t)
    simp only [List.length_append, List.length_cons]
    omega
end

/-- A leading `'-'` or digit cannot be one of a list of other literal heads. -/
theorem num_head_ne {c : Char} (hd : c = '-' ∨ c.isDigit = true) (x : Char)
    (hx1 : x ≠ '-') (hx2 : x.isDigit = false) : c ≠ x := by
  rcases hd with rfl | hdig
  · exact fun h => hx1 h.symm
  · exact head_ne_of_digit hdig hx2

theorem numDelim_cons {c : Char} {t : List Char} (h : c.isDigit = false) :
    numDelim (c :: t) := h

theorem renderFields_cons_head (k : List Char) (v : Json) (t : JsonFields) :
    ∃ cs, renderFields (JsonFields.cons k v t) = '"' :: cs := by
  cases t with
  | nil => exact ⟨_, by rw [renderFields, renderStr, List.cons_append]⟩
  | cons k2 v2 t2 =>
    exact ⟨_, by rw [renderFields, renderStr, List.cons_append, List.cons_append]⟩

theorem skipWs_renderFields (k : List Char) (v : Json) (t : JsonFields) (rest : List Char) :
    skipWs (renderFields (JsonFields.cons k v t) ++ rest) =
      renderFields (JsonFields.cons k v t) ++ rest := by
  obtain ⟨cs, heq⟩ := renderFields_cons_head k v t
  rw [heq, List.cons_append]
  exact skipWs_cons_not_ws (by decide)

theorem skipWs_renderItems (x : Json) (t : JsonList) (rest : List Char) :
    skipWs (renderItems (JsonList.cons x t) ++ rest) =
      renderItems (JsonList.cons x t) ++ rest := by
  obtain ⟨c, cs, heq, hd⟩ := renderItems_cons_head x t
  rw [heq, List.cons_append]
  exact skipWs_cons_not_ws (not_ws_of_head hd)

/-- The parse/render inversion, by induction on the parser fuel: a rendered
well-formed value, followed by a remainder that cannot extend a number
literal, is decoded back exactly; likewise for non-empty element lists
(up to the closing `']'`) and non-empty member lists (up to the closing
`'}'`, the members accumulating into `acc` by dict assignment). -/
theorem parse_render_aux : ∀ fuel : Nat,
    (∀ (v : Json) (r : List Char), Json.size v ≤ fuel → Json.Wf v → numDelim r →
      parseValueF fuel (render v ++ r) = some (v, r)) ∧
    (∀ (items : JsonList) (r : List Char), items ≠ JsonList.nil →
      JsonList.size items ≤ fuel → JsonList.Wf items →
      parseItemsF fuel (renderItems items ++ (']' :: r)) = some (items, r)) ∧
    (∀ (fields : JsonFields) (acc : JsonFields) (r : List Char),
      fields ≠ JsonFields.nil → JsonFields.size fields ≤ fuel → JsonFields.Wf fields →
      parseMembersF fuel acc (renderFields fields ++ ('}' :: r)) =
        some (foldInsert acc fields, r)) := by
  intro fuel
  induction fuel with
  | zero =>
    refine ⟨?_, ?_, ?_⟩
    · intro v r hsz _ _
      exact absurd hsz (by have := size_pos v; omega)
    · intro items r hne hsz _
      exact absurd hsz (by have := sizeL_pos_of_ne_nil hne; omega)
    · intro fields acc r hne hsz _
      exact absurd hsz (by have := sizeF_pos_of_ne_nil hne; omega)
  | succ fuel ih =>
    obtain ⟨ihv, ihl2, ihf2⟩ := ih
    refine ⟨?_, ?_, ?_⟩
    · intro v r hsz hwf hnum
      show parseValueB (parseMembersF fuel) (parseItemsF fuel) (render v ++ r) = some (v, r)
      cases v with
      | jnull => rfl
      | jbool b =>
        cases b
        · rfl
        · rfl
      | jnum n =>
        obtain ⟨c, cs, heq, hd⟩ := renderInt_head n
        have hc1 : c ≠ '{' := num_head_ne hd '{' (by decide) (by decide)
        have hc2 : c ≠ '[' := num_head_ne hd '[' (by decide) (by decide)
        have hc3 : c ≠ '"' := num_head_ne hd '"' (by decide) (by decide)
        rw [render, heq, List.cons_append, parseValueB.eq_def]
        split
        · simp_all
        · rename_i c2 t2 heq4
          injection heq4 with hA hB
          subst hA
          subst hB
          rw [if_neg hc1, if_neg hc2, if_neg hc3]
          split
          · rename_i r3 heq3
            exfalso
            injection heq3 with hcn _
            subst hcn
            rcases hd with h | h
            · exact absurd h (by decide)
            · exact absurd h (by decide)
          · rename_i r3 heq3
            exfalso
            injection heq3 with hcn _
            subst hcn
            rcases hd with h | h
            · exact absurd h (by decide)
            · exact absurd h (by decide)
          · rename_i r3 heq3
            exfalso
            injection heq3 with hcn _
            subst hcn
            rcases hd with h | h
            · exact absurd h (by decide)
            · exact absurd h (by decide)
          · rw [← List.cons_append, ← heq, parseNum_renderInt n r hnum]
      | jstr cs =>
        rw [render, renderStr, List.cons_append, List.append_assoc, List.singleton_append]
        show (match parseStr (escapeChars cs ++ ('"' :: r)) with
            | none => none
            | some (cs2, r1) => some (Json.jstr cs2, r1)) = some (Json.jstr cs, r)
        rw [escapeChars_parse]
      | jarr items =>
        cases items with
        | nil => rfl
        | cons x t =>
          rw [Json.size] at hsz
          cases hwf with
          | arr hwl =>
            rw [render, List.cons_append, List.append_assoc, List.singleton_append]
            show (match skipWs (renderItems (JsonList.cons x t) ++ (']' :: r)) with
                | ']' :: r2 => some (Json.jarr JsonList.nil, r2)
                | t1 =>
                  match parseItemsF fuel t1 with
                  | none => none
                  | some (l, r2) => some (Json.jarr l, r2)) =
              some (Json.jarr (JsonList.cons x t), r)
            obtain ⟨c2, cs2, heq2, hd2⟩ := renderItems_cons_head x t
            rw [skipWs_renderItems, heq2, List.cons_append]
            split
            · rename_i r2 heq3
              exfalso
              injection heq3 with hc _
              subst hc
              rcases hd2 with h | h | h | h | h | h | h | h <;> exact absurd h (by decide)
            · rw [← List.cons_append, ← heq2,
                  ihl2 (JsonList.cons x t) r (by intro hh; cases hh) (by omega) hwl]
      | jobj fields =>
        cases fields with
        | nil => rfl
        | cons k v t =>
          rw [Json.size] at hsz
          cases hwf with
          | obj hnd hwF =>
            rw [render, List.cons_append, List.append_assoc, List.singleton_append]
            show (match skipWs (renderFields (JsonFields.cons k v t) ++ ('}' :: r)) with
                | '}' :: r2 => some (Json.jobj JsonFields.nil, r2)
                | t1 =>
                  match parseMembersF fuel JsonFields.nil t1 with
                  | none => none
                  | some (f, r2) => some (Json.jobj f, r2)) =
              some (Json.jobj (JsonFields.cons k v t), r)
            obtain ⟨cs2, heq2⟩ := renderFields_cons_head k v t
            rw [skipWs_renderFields, heq2, List.cons_append]
            show (match parseMembersF fuel JsonFields.nil ('"' :: (cs2 ++ ('}' :: r))) with
                | none => none
                | some (f, r2) => some (Json.jobj f, r2)) =
              some (Json.jobj (JsonFields.cons k v t), r)
            rw [← List.cons_append, ← heq2,
                ihf2 (JsonFields.cons k v t) JsonFields.nil r (by intro hh; cases hh)
                  (by omega) hwF,
                foldInsert_nil hnd]
    · intro items r hne hsz hwf
      cases items with
      | nil => exact absurd rfl hne
      | cons x t =>
        cases hwf with
        | cons hwx hwt =>
          show parseItemsB (parseItemsF fuel) (parseValueF fuel)
              (renderItems (JsonList.cons x t) ++ (']' :: r)) = some (JsonList.cons x t, r)
          cases t with
          | nil =>
            rw [JsonList.size, JsonList.size] at hsz
            rw [renderItems]
            simp only [parseItemsB]
            rw [ihv x (']' :: r) (by omega) hwx (numDelim_cons (by decide))]
            rfl
          | cons y t2 =>
            rw [JsonList.size] at hsz
            have hx1 := size_pos x
            rw [renderItems, List.append_assoc, List.cons_append]
            simp only [parseItemsB]
            rw [ihv x (',' :: (renderItems (JsonList.cons y t2) ++ (']' :: r))) (by omega)
                hwx (numDelim_cons (by decide))]
            show (match parseItemsF fuel
                  (skipWs (renderItems (JsonList.cons y t2) ++ (']' :: r))) with
                | none => none
                | some (l, r2) => some (JsonList.cons x l, r2)) =
              some (JsonList.cons x (JsonList.cons y t2), r)
            rw [skipWs_renderItems,
                ihl2 (JsonList.cons y t2) r (by intro hh; cases hh) (by omega) hwt]
    · intro fields acc r hne hsz hwf
      cases fields with
      | nil => exact absurd rfl hne
      | cons k v t =>
        cases hwf with
        | cons hwv hwt =>
          show parseMembersB (parseMembersF fuel) (parseValueF fuel) acc
              (renderFields (JsonFields.cons k v t) ++ ('}' :: r)) =
            some (foldInsert acc (JsonFields.cons k v t), r)
          cases t with
          | nil =>
            rw [JsonFields.size, JsonFields.size] at hsz
            rw [renderFields, renderStr]
            simp only [List.cons_append, List.append_assoc, List.singleton_append]
            show (match parseStr (escapeChars k ++ ('"' :: (':' :: (render v ++ ('}' :: r))))) with
                | none => none
                | some (k2, r1) =>
                  match skipWs r1 with
                  | ':' :: r2 =>
                    match parseValueF fuel (skipWs r2) with
                    | none => none
                    | some (v2, r3) =>
                      match skipWs r3 with
                      | ',' :: r4 => parseMembersF fuel (fieldsInsert acc k2 v2) (skipWs r4)
                      | '}' :: r4 => some (fieldsInsert acc k2 v2, r4)
                      | _ => none
                  | _ => none) =
              some (foldInsert acc (JsonFields.cons k v JsonFields.nil), r)
            rw [escapeChars_parse]
            show (match parseValueF fuel (skipWs (render v ++ ('}' :: r))) with
                | none => none
                | some (v2, r3) =>
                  match skipWs r3 with
                  | ',' :: r4 => parseMembersF fuel (fieldsInsert acc k v2) (skipWs r4)
                  | '}' :: r4 => some (fieldsInsert acc k v2, r4)
                  | _ => none) =
              some (foldInsert acc (JsonFields.cons k v JsonFields.nil), r)
            rw [skipWs_render, ihv v ('}' :: r) (by omega) hwv (numDelim_cons (by decide))]
            rfl
          | cons k2 v2 t2 =>
            rw [JsonFields.size] at hsz
            have hv1 := size_pos v
            rw [renderFields, renderStr]
            simp only [List.cons_append, List.append_assoc, List.singleton_append]
            show (match parseStr (escapeChars k ++ ('"' :: (':' :: (render v ++
                  (',' :: (renderFields (JsonFields.cons k2 v2 t2) ++ ('}' :: r))))))) with
                | none => none
                | some (kk, r1) =>
                  match skipWs r1 with
                  | ':' :: rr2 =>
                    match parseValueF fuel (skipWs rr2) with
                    | none => none
                    | some (vv, r3) =>
                      match skipWs r3 with
                      | ',' :: r4 => parseMembersF fuel (fieldsInsert acc kk vv) (skipWs r4)
                      | '}' :: r4 => some (fieldsInsert acc kk vv, r4)
                      | _ => none
                  | _ => none) =
              some (foldInsert acc (JsonFields.cons k v (JsonFields.cons k2 v2 t2)), r)
            rw [escapeChars_parse]
            show (match parseValueF fuel (skipWs (render v ++
                  (',' :: (renderFields (JsonFields.cons k2 v2 t2) ++ ('}' :: r))))) with
                | none => none
                | some (vv, r3) =>
                  match skipWs r3 with
                  | ',' :: r4 => parseMembersF fuel (fieldsInsert acc k vv) (skipWs r4)
                  | '}' :: r4 => some (fieldsInsert acc k vv, r4)
                  | _ => none) =
              some (foldInsert acc (JsonFields.cons k v (JsonFields.cons k2 v2 t2)), r)
            rw [skipWs_render,
                ihv v (',' :: (renderFields (JsonFields.cons k2 v2 t2) ++ ('}' :: r)))
                  (by omega) hwv (numDelim_cons (by decide))]
            show parseMembersF fuel (fieldsInsert acc k v)
                (skipWs (renderFields (JsonFields.cons k2 v2 t2) ++ ('}' :: r))) =
              some (foldInsert acc (JsonFields.cons k v (JsonFields.cons k2 v2 t2)), r)
            rw [skipWs_renderFields,
                ihf2 (JsonFields.cons k2 v2 t2) (fieldsInsert acc k v) r
                  (by intro hh; cases hh) (by omega) hwt]
            rfl

/-- `raw_decode` inverts the renderer on every well-formed value: the fuel
`length + 1` chosen by `rawDecode` is sufficient because a value's size is
bounded by the length of its rendering. -/
theorem parse_render {v : Json} (hwf : Json.Wf v) :
    rawDecode (render v) = some (v, []) := by
  have hsz : Json.size v ≤ (render v).length + 1 := by
    have := size_le_renderLen v
    omega
  have h := (parse_render_aux ((render v).length + 1)).1 v [] hsz hwf trivial
  rw [List.append_nil] at h
  rw [rawDecode]
  exact h

/-- A rendered object starts with `'{'`, so `from_json`'s brace search keeps
the whole string. -/
theorem pyExtract_obj (fs : JsonFields) :
    pyExtract (render (Json.jobj fs)) = render (Json.jobj fs) := by
  rw [render]
  rfl

/-- C6: serializing a `ReviewSummary` with `to_json` and re-parsing the
resulting string with `from_json` yields the original summary, field for
field.  The nine hypotheses state that each stored field is a well-formed
JSON value (objects inside have duplicate-free keys) — true of every value
a Python `ReviewSummary` can hold, because Python dicts cannot repeat a
key. -/
theorem from_json_to_json (rs : ReviewSummary)
    (h1 : Json.Wf rs.overall_sentiment)
    (h2 : Json.Wf rs.purchase_intent_percentage)
    (h3 : Json.Wf rs.confidence_score)
    (h4 : Json.Wf rs.key_strengths)
    (h5 : Json.Wf rs.key_concerns)
    (h6 : Json.Wf rs.demographic_insights)
    (h7 : Json.Wf rs.common_themes)
    (h8 : Json.Wf rs.recommendation)
    (h9 : Json.Wf rs.detailed_summary) :
    from_json (to_json rs) = rs := by
  have hwf : Json.Wf (toJsonValue rs) := by
    rw [toJsonValue]
    refine Json.Wf.obj ?_ ?_
    · show requiredKeys.Nodup
      decide
    · exact JsonFields.Wf.cons h1 (JsonFields.Wf.cons h2 (JsonFields.Wf.cons h3
        (JsonFields.Wf.cons h4 (JsonFields.Wf.cons h5 (JsonFields.Wf.cons h6
        (JsonFields.Wf.cons h7 (JsonFields.Wf.cons h8 (JsonFields.Wf.cons h9
        JsonFields.Wf.nil))))))))
  have hdec := parse_render hwf
  rw [toJsonValue] at hdec
  rw [to_json, toJsonValue, from_json, pyExtract_obj, hdec]
  rfl

/-- Witness for C6: the summary whose nine fields are all the number `0`
round-trips, the well-formedness hypotheses discharged by constructors. -/
theorem from_json_to_json_witness :
    from_json (to_json zeroSummary) = zeroSummary :=
  from_json_to_json zeroSummary (Json.Wf.num 0) (Json.Wf.num 0) (Json.Wf.num 0)
    (Json.Wf.num 0) (Json.Wf.num 0) (Json.Wf.num 0) (Json.Wf.num 0) (Json.Wf.num 0)
    (Json.Wf.num 0)
